import Mathlib

/-!
# Device-tree overlay configfs entries (`dt_overlay.c`)

A shallow embedding of the configfs item of `dt_overlay.c`: the item
structure, the `path` and `status` attributes, `create_overlay`, the release
callback and `make_item`.

The kernel services the file calls (firmware loader, FDT unflattening, phandle
resolution, overlay engine, allocator) are not part of the file.  They are a
parameter of every operation, `Kernel`, and every call the code makes to one of
them is recorded, in program order, in a list of `Call`s.
-/

namespace DtOverlay

/-! ## Constants -/

/-- Errno `EPERM` of `<errno.h>`. -/
def EPERM : Int := 1

/-- Errno `ENOMEM` of `<errno.h>`. -/
def ENOMEM : Int := 12

/-- Errno `EINVAL` of `<errno.h>`. -/
def EINVAL : Int := 22

/-- Size of the path buffer, `PATH_MAX` of `<linux/limits.h>`. -/
def PATH_MAX : Nat := 4096

/-! ## Data model -/

/-- A loaded `struct firmware`, named by its address. -/
abbrev Blob := Nat

/-- A `struct device_node`, named by its address. -/
abbrev Node := Nat

/-- The item `struct cfs_overlay_item`.  `item` is the embedded config item,
named by the name it was made with; `path` is the C string held in the
`char path[PATH_MAX]` buffer (the characters before the first NUL); a pointer
field is `none` when it is `NULL`. -/
structure cfs_overlay_item where
  item : List Char
  path : List Char
  fw : Option Blob
  overlay : Option Node
  ov_id : Int
  dtbo : Option Nat
  dtbo_size : Int
deriving DecidableEq, Repr

/-- The kernel services used by the file, as C gives them to the caller.  A
function with an out-parameter takes the value the parameter holds at the call
and returns the value it holds afterwards next to the return value:

* `request_firmware name fw` is `request_firmware(&fw, name, NULL)`;
* `of_fdt_unflatten_tree blob mynodes` is
  `of_fdt_unflatten_tree(blob, NULL, &mynodes)`, whose return value is the
  memory of the tree (`none` for `NULL`);
* `of_overlay_fdt_apply tree size id` is `of_overlay_fdt_apply(tree, size, &id)`;
* `of_overlay_remove id` is `of_overlay_remove(&id)`;
* `kzalloc` tells whether the allocation of an item succeeds. -/
structure Kernel where
  request_firmware : List Char → Option Blob → Int × Option Blob
  of_fdt_unflatten_tree : Blob → Option Node → Option Nat × Option Node
  of_resolve_phandles : Node → Int
  of_overlay_fdt_apply : Node → Int → Int → Int × Int
  of_overlay_remove : Int → Int × Int
  kzalloc : Bool

/-- A call made to a kernel service, with the arguments passed by value. -/
inductive Call where
  | request_firmware (name : List Char)
  | of_fdt_unflatten_tree (blob : Blob)
  | of_node_set_flag (node : Node)
  | of_resolve_phandles (tree : Node)
  | of_overlay_fdt_apply (tree : Node) (size : Int)
  | release_firmware (fw : Option Blob)
  | of_overlay_remove (id : Int)
  | kfree_dtbo (dtbo : Option Nat)
  | kfree_overlay
deriving DecidableEq, Repr

/-- What an operation on an item leaves behind: its return value, the item and
the calls it made. -/
structure Outcome where
  ret : Int
  overlay : cfs_overlay_item
  calls : List Call
deriving DecidableEq, Repr

/-! ## The operations -/

/-- The function `create_overlay(overlay, blob)`. -/
def create_overlay (k : Kernel) (overlay : cfs_overlay_item) (blob : Blob) : Outcome :=
  -- of_fdt_unflatten_tree((void *)blob, NULL, &overlay->overlay);
  let overlay1 := { overlay with overlay := (k.of_fdt_unflatten_tree blob overlay.overlay).2 }
  let calls1 := [Call.of_fdt_unflatten_tree blob]
  match overlay1.overlay with
  | none => ⟨-EINVAL, overlay1, calls1⟩
  | some tree =>
    -- of_node_set_flag(overlay->overlay, OF_DETACHED);
    -- ret = of_resolve_phandles(overlay->overlay);
    let ret := k.of_resolve_phandles tree
    let calls2 := calls1 ++ [Call.of_node_set_flag tree, Call.of_resolve_phandles tree]
    if ret ≠ 0 then ⟨ret, overlay1, calls2⟩
    else
      -- ret = of_overlay_fdt_apply(overlay->overlay, overlay->dtbo_size, &overlay->ov_id);
      let r := k.of_overlay_fdt_apply tree overlay1.dtbo_size overlay1.ov_id
      let overlay2 := { overlay1 with ov_id := r.2 }
      let calls3 := calls2 ++ [Call.of_overlay_fdt_apply tree overlay1.dtbo_size]
      if r.1 < 0 then ⟨r.1, overlay2, calls3⟩
      else ⟨0, overlay2, calls3⟩

/-- The C string at `buf`: the characters before the first NUL. -/
def c_str (buf : List Char) : List Char :=
  buf.takeWhile (fun c => c ≠ '\x00')

/-- The call `snprintf(dst, size, "%s", p)`: the string left in `dst` (at most
`size - 1` characters, then a NUL) and the return value, the length of `p`. -/
def snprintf (size : Nat) (p : List Char) : List Char × Nat :=
  (p.take (size - 1), p.length)

/-- The loop `while (s > overlay->path && *--s == '\n') *s = '\0';`, with `s`
as an offset into `path`.  Storing the NUL at offset `s` cuts the string to its
first `s` characters. -/
def strip_trailing_newlines : Nat → List Char → List Char
  | 0, path => path
  | s + 1, path =>
    if path.get? s = some '\n' then strip_trailing_newlines s (path.take s)
    else path

/-- The string that `cfs_overlay_item_path_store` leaves in `overlay->path`
before it requests the firmware. -/
def stored_path (buf : List Char) : List Char :=
  let path := (snprintf (PATH_MAX - 1) (c_str buf)).1
  strip_trailing_newlines path.length path

/-- The test `overlay->path[0] != '\0' || overlay->dtbo_size > 0`. -/
def path_is_set (overlay : cfs_overlay_item) : Prop :=
  overlay.path ≠ [] ∨ overlay.dtbo_size > 0

instance (overlay : cfs_overlay_item) : Decidable (path_is_set overlay) := by
  unfold path_is_set; infer_instance

/-- The function `cfs_overlay_item_path_store(item, buf, count)`.  The result
is `none` when the code dereferences `overlay->fw` while it is `NULL`. -/
def cfs_overlay_item_path_store (k : Kernel) (overlay : cfs_overlay_item)
    (buf : List Char) (count : Nat) : Option Outcome :=
  -- if it's set do not allow changes
  if path_is_set overlay then some ⟨-EPERM, overlay, []⟩
  else
    -- count = snprintf(overlay->path, sizeof(overlay->path) - 1, "%s", p);
    let count := (snprintf (PATH_MAX - 1) (c_str buf)).2
    let path := (snprintf (PATH_MAX - 1) (c_str buf)).1
    -- strip trailing newlines
    let path := strip_trailing_newlines path.length path
    -- err = request_firmware(&overlay->fw, overlay->path, NULL);
    let r := k.request_firmware path overlay.fw
    let overlay1 := { overlay with path := path, fw := r.2 }
    let calls1 := [Call.request_firmware path]
    if r.1 ≠ 0 then
      -- out_err
      some ⟨r.1, { overlay1 with fw := none, path := [] },
        calls1 ++ [Call.release_firmware overlay1.fw]⟩
    else
      match overlay1.fw with
      | none => none
      | some fw =>
        -- err = create_overlay(overlay, (void *)overlay->fw->data);
        let o := create_overlay k overlay1 fw
        if o.ret ≠ 0 then
          -- out_err
          some ⟨o.ret, { o.overlay with fw := none, path := [] },
            calls1 ++ o.calls ++ [Call.release_firmware o.overlay.fw]⟩
        else
          some ⟨(count : Int), o.overlay, calls1 ++ o.calls⟩

/-- The function `cfs_overlay_item_path_show(item, buf)`: the return value of
`sprintf` and the text left in `buf`. -/
def cfs_overlay_item_path_show (overlay : cfs_overlay_item) : Int × List Char :=
  (((overlay.path ++ ['\n']).length : Nat), overlay.path ++ ['\n'])

/-- The function `cfs_overlay_item_status_show(item, buf)`: the return value of
`sprintf` and the text left in `buf`. -/
def cfs_overlay_item_status_show (overlay : cfs_overlay_item) : Int × List Char :=
  let s := if overlay.ov_id ≥ 0 then "applied".toList else "unapplied".toList
  (((s ++ ['\n']).length : Nat), s ++ ['\n'])

/-- The function `cfs_overlay_release(item)`: the calls it makes.  The item is
freed by the last of them. -/
def cfs_overlay_release (k : Kernel) (overlay : cfs_overlay_item) : List Call :=
  let calls1 := if overlay.ov_id ≥ 0 then [Call.of_overlay_remove overlay.ov_id] else []
  let overlay1 :=
    if overlay.ov_id ≥ 0 then { overlay with ov_id := (k.of_overlay_remove overlay.ov_id).2 }
    else overlay
  let calls2 := if overlay1.fw.isSome then [Call.release_firmware overlay1.fw] else []
  calls1 ++ calls2 ++ [Call.kfree_dtbo overlay1.dtbo, Call.kfree_overlay]

/-- The function `cfs_overlay_group_make_item(group, name)`; the error is the
value passed to `ERR_PTR`. -/
def cfs_overlay_group_make_item (k : Kernel) (name : List Char) : Except Int cfs_overlay_item :=
  if k.kzalloc then
    .ok { item := name, path := [], fw := none, overlay := none, ov_id := -1,
          dtbo := none, dtbo_size := 0 }
  else .error (-ENOMEM)

/-! ## Vocabulary of the specification -/

/-- The steps of the chain run by a write of `path`. -/
inductive Step where
  | load
  | unflatten
  | resolve
  | apply
deriving DecidableEq, Repr

/-- A write of `buf` to `overlay` fails at step `st` with code `e`, by the
test the code makes after the step: `request_firmware` returns `e ≠ 0`; the
tree pointer is `NULL` after `of_fdt_unflatten_tree` (`e` is `-EINVAL`);
`of_resolve_phandles` returns `e ≠ 0`; `of_overlay_fdt_apply` returns `e < 0`.
The steps before `st` have succeeded. -/
def fails_at (k : Kernel) (overlay : cfs_overlay_item) (buf : List Char) : Step → Int → Prop
  | .load, e => (k.request_firmware (stored_path buf) overlay.fw).1 = e ∧ e ≠ 0
  | .unflatten, e => ∃ b, k.request_firmware (stored_path buf) overlay.fw = (0, some b) ∧
      (k.of_fdt_unflatten_tree b overlay.overlay).2 = none ∧ e = -EINVAL
  | .resolve, e => ∃ b t, k.request_firmware (stored_path buf) overlay.fw = (0, some b) ∧
      (k.of_fdt_unflatten_tree b overlay.overlay).2 = some t ∧
      k.of_resolve_phandles t = e ∧ e ≠ 0
  | .apply, e => ∃ b t, k.request_firmware (stored_path buf) overlay.fw = (0, some b) ∧
      (k.of_fdt_unflatten_tree b overlay.overlay).2 = some t ∧
      k.of_resolve_phandles t = 0 ∧
      (k.of_overlay_fdt_apply t overlay.dtbo_size overlay.ov_id).1 = e ∧ e < 0

/-- All four steps of a write of `buf` to `overlay` succeed: the load gives
blob `b`, unflattening leaves tree `t`, resolution returns `0`, and the apply
call returns a non-negative value and stores `h` through its out-parameter. -/
def chain_succeeds (k : Kernel) (overlay : cfs_overlay_item) (buf : List Char)
    (b : Blob) (t : Node) (h : Int) : Prop :=
  k.request_firmware (stored_path buf) overlay.fw = (0, some b) ∧
  (k.of_fdt_unflatten_tree b overlay.overlay).2 = some t ∧
  k.of_resolve_phandles t = 0 ∧
  0 ≤ (k.of_overlay_fdt_apply t overlay.dtbo_size overlay.ov_id).1 ∧
  (k.of_overlay_fdt_apply t overlay.dtbo_size overlay.ov_id).2 = h

/-- The items reachable from `make_item` by completed writes of `path`. -/
inductive Reachable : cfs_overlay_item → Prop where
  | make (k : Kernel) (name : List Char) (s : cfs_overlay_item) :
      cfs_overlay_group_make_item k name = .ok s → Reachable s
  | store (k : Kernel) (s : cfs_overlay_item) (buf : List Char) (count : Nat) (o : Outcome) :
      Reachable s → cfs_overlay_item_path_store k s buf count = some o → Reachable o.overlay

/-- The items that never reached Applied: a fresh item, then any number of
writes of `path` that each failed at a step. -/
inductive NeverApplied : cfs_overlay_item → Prop where
  | make (k : Kernel) (name : List Char) (s : cfs_overlay_item) :
      cfs_overlay_group_make_item k name = .ok s → NeverApplied s
  | store (k : Kernel) (s : cfs_overlay_item) (buf : List Char) (count : Nat)
      (st : Step) (e : Int) (o : Outcome) :
      NeverApplied s → fails_at k s buf st e →
      cfs_overlay_item_path_store k s buf count = some o → NeverApplied o.overlay

/-- The calls that release a firmware blob. -/
def is_release_firmware : Call → Bool
  | .release_firmware _ => true
  | _ => false

/-- The calls that remove an applied overlay. -/
def is_overlay_remove : Call → Bool
  | .of_overlay_remove _ => true
  | _ => false

/-! ## Concrete kernels and items -/

/-- A kernel in which every step succeeds: blob `1`, tree `2`, handle id `7`. -/
def kernel_ok : Kernel where
  request_firmware := fun _ _ => (0, some 1)
  of_fdt_unflatten_tree := fun _ _ => (some 2, some 2)
  of_resolve_phandles := fun _ => 0
  of_overlay_fdt_apply := fun _ _ _ => (0, 7)
  of_overlay_remove := fun _ => (0, 0)
  kzalloc := true

/-- A kernel whose firmware loader finds nothing (`-ENOENT`). -/
def kernel_load_fails : Kernel :=
  { kernel_ok with request_firmware := fun _ _ => (-2, none) }

/-- A kernel whose unflattening rejects the blob and clears the tree pointer. -/
def kernel_unflatten_fails : Kernel :=
  { kernel_ok with of_fdt_unflatten_tree := fun _ _ => (none, none) }

/-- A kernel whose phandle resolution fails with `-EINVAL`. -/
def kernel_resolve_fails : Kernel :=
  { kernel_ok with of_resolve_phandles := fun _ => -22 }

/-- A kernel whose apply call stores id `7` through its out-parameter and then
reports `-EINVAL`. -/
def kernel_apply_fails : Kernel :=
  { kernel_ok with of_overlay_fdt_apply := fun _ _ _ => (-22, 7) }

/-- A kernel whose unflattening rejects the blob (it returns `NULL`) and leaves
the tree pointer as it found it; the loader gives blob `3`. -/
def kernel_unflatten_stale : Kernel :=
  { kernel_ok with
    request_firmware := fun _ _ => (0, some 3)
    of_fdt_unflatten_tree := fun _ mynodes => (none, mynodes) }

/-- The item that `make_item` returns for the name `ov`. -/
def fresh_ov : cfs_overlay_item :=
  { item := "ov".toList, path := [], fw := none, overlay := none, ov_id := -1,
    dtbo := none, dtbo_size := 0 }

/-- The item `fresh_ov` after a write that failed at the resolve step: the path
and the blob are cleared, tree `2` is still there. -/
def ov_after_resolve_failure : cfs_overlay_item :=
  { fresh_ov with overlay := some 2 }

/-- The item `fresh_ov` after a newline was written to `path` under
`kernel_ok`: applied with handle id `7`, the stored path empty. -/
def ov_applied_empty_path : cfs_overlay_item :=
  { fresh_ov with fw := some 1, overlay := some 2, ov_id := 7 }

/-! ## Vocabulary of the later claims -/

/-- The text `l` with all of its trailing newlines removed, in the words of the
specification. -/
def without_trailing_newlines (l : List Char) : List Char :=
  l.rdropWhile (fun c => c = '\n')

/-- The place of a call in the order of teardown: overlay removal, blob
release, `dtbo` buffer, item memory.  The calls a release never makes come
last. -/
def release_rank : Call → Nat
  | .of_overlay_remove _ => 0
  | .release_firmware _ => 1
  | .kfree_dtbo _ => 2
  | .kfree_overlay => 3
  | _ => 4

/-- The text made of `n` times the character `c`. -/
def text_of (n : Nat) (c : Char) : List Char :=
  List.replicate n c

/-- A kernel whose firmware loader refuses with `-EPERM`. -/
def kernel_load_eperm : Kernel :=
  { kernel_ok with request_firmware := fun _ _ => (-1, none) }

/-- A kernel whose apply call stores `-2` through its out-parameter and then
reports `-EINVAL`. -/
def kernel_apply_negative_id : Kernel :=
  { kernel_ok with of_overlay_fdt_apply := fun _ _ _ => (-22, -2) }

/-- The item `fresh_ov` after a write that failed under
`kernel_apply_negative_id`: tree `2` is held and the overlay handle is `-2`. -/
def ov_negative_id : cfs_overlay_item :=
  { fresh_ov with overlay := some 2, ov_id := -2 }

/-! ## The path buffer, byte by byte

The bytes of `char path[PATH_MAX]` as a list of `PATH_MAX` characters, with
the accesses of lines 104 to 112 of the file made at explicit offsets. -/

/-- The read `path[i]`: `none` when the offset `i` lies outside the buffer. -/
def buf_read (path : List Char) (i : Int) : Option Char :=
  if 0 ≤ i ∧ i < path.length then path.get? i.toNat else none

/-- The store `path[i] = c`: `none` when the offset `i` lies outside the
buffer. -/
def buf_write (path : List Char) (i : Int) (c : Char) : Option (List Char) :=
  if 0 ≤ i ∧ i < path.length then some (path.set i.toNat c) else none

/-- The call `snprintf(dst, size, "%s", p)` on the bytes of `dst`: the first
`size - 1` characters of `p` are copied and a NUL is stored after them.  The
result is `none` when `size` is more than the buffer has. -/
def buf_snprintf (dst : List Char) (size : Nat) (p : List Char) : Option (List Char) :=
  if size = 0 then some dst
  else if size ≤ dst.length then
    some (p.take (size - 1) ++ '\x00' :: dst.drop ((p.take (size - 1)).length + 1))
  else none

/-- The call `strlen(path)`: `none` when the buffer holds no NUL. -/
def buf_strlen (path : List Char) : Option Nat :=
  if '\x00' ∈ path then some (c_str path).length else none

/-- The loop `while (s > overlay->path && *--s == '\n') *s = '\0';` on the
bytes of the buffer, `s` being the offset of the pointer from the start of the
buffer.  The result is `none` when an access leaves the buffer or the fuel
runs out. -/
def strip_loop : Nat → List Char → Int → Option (List Char)
  | 0, _, _ => none
  | fuel + 1, path, s =>
    if s > 0 then
      match buf_read path (s - 1) with
      | none => none
      | some c =>
        if c = '\n' then
          match buf_write path (s - 1) '\x00' with
          | none => none
          | some path1 => strip_loop fuel path1 (s - 1)
        else some path
    else some path

/-- Lines 104 to 112 of `cfs_overlay_item_path_store` on the bytes of the
buffer: the bounded copy, the NUL stored in the last byte, and the loop that
strips the trailing newlines, started at `path + strlen(path)`. -/
def path_buffer_store (fuel : Nat) (path : List Char) (buf : List Char) : Option (List Char) :=
  -- count = snprintf(overlay->path, sizeof(overlay->path) - 1, "%s", p);
  match buf_snprintf path (PATH_MAX - 1) (c_str buf) with
  | none => none
  | some path1 =>
    -- overlay->path[sizeof(overlay->path) - 1] = '\0';
    match buf_write path1 (PATH_MAX - 1) '\x00' with
    | none => none
    | some path2 =>
      -- s = overlay->path + strlen(overlay->path);
      match buf_strlen path2 with
      | none => none
      | some n => strip_loop fuel path2 n

/-! ## Concrete kernels and items of the revised claims -/

/-- A kernel in which every step succeeds and the apply call stores the
negative id `-3` through its out-parameter. -/
def kernel_ok_negative_id : Kernel :=
  { kernel_ok with of_overlay_fdt_apply := fun _ _ _ => (0, -3) }

/-- The item `fresh_ov` after `valid.dtbo` was written under `kernel_ok`:
applied with handle id `7`, holding blob `1` and tree `2`. -/
def ov_applied : cfs_overlay_item :=
  { fresh_ov with path := "valid.dtbo".toList, fw := some 1, overlay := some 2, ov_id := 7 }

/-- The item `ov_after_resolve_failure` after the retry `b.dtbo` under
`kernel_unflatten_stale`: the path is stored, blob `3` is held and the old tree
`2` is applied with id `7`. -/
def ov_after_stale_retry : cfs_overlay_item :=
  { ov_after_resolve_failure with path := "b.dtbo".toList, fw := some 3, ov_id := 7 }

/-! # Theorems -/

/-! ## The write, case by case -/

theorem path_store_of_set (k : Kernel) (s : cfs_overlay_item) (buf : List Char) (count : Nat)
    (hs : path_is_set s) :
    cfs_overlay_item_path_store k s buf count = some ⟨-EPERM, s, []⟩ := by
  simp [cfs_overlay_item_path_store, hs]

theorem path_store_load_fail (k : Kernel) (s : cfs_overlay_item) (buf : List Char) (count : Nat)
    (hs : ¬ path_is_set s) (e : Int)
    (hl : (k.request_firmware (stored_path buf) s.fw).1 = e) (he : e ≠ 0) :
    cfs_overlay_item_path_store k s buf count =
      some ⟨e, { s with path := [], fw := none },
        [Call.request_firmware (stored_path buf),
         Call.release_firmware (k.request_firmware (stored_path buf) s.fw).2]⟩ := by
  subst hl
  simp only [stored_path] at he ⊢
  simp [cfs_overlay_item_path_store, hs, he]

theorem path_store_load_null (k : Kernel) (s : cfs_overlay_item) (buf : List Char) (count : Nat)
    (hs : ¬ path_is_set s)
    (hl : k.request_firmware (stored_path buf) s.fw = (0, none)) :
    cfs_overlay_item_path_store k s buf count = none := by
  simp only [stored_path] at hl
  simp [cfs_overlay_item_path_store, hs, hl]

theorem path_store_unflatten_fail (k : Kernel) (s : cfs_overlay_item) (buf : List Char)
    (count : Nat) (hs : ¬ path_is_set s) (b : Blob)
    (hl : k.request_firmware (stored_path buf) s.fw = (0, some b))
    (hu : (k.of_fdt_unflatten_tree b s.overlay).2 = none) :
    cfs_overlay_item_path_store k s buf count =
      some ⟨-EINVAL, { s with path := [], fw := none, overlay := none },
        [Call.request_firmware (stored_path buf), Call.of_fdt_unflatten_tree b,
         Call.release_firmware (some b)]⟩ := by
  simp only [stored_path] at hl
  simp [cfs_overlay_item_path_store, hs, hl, create_overlay, hu, EINVAL, stored_path]

theorem path_store_resolve_fail (k : Kernel) (s : cfs_overlay_item) (buf : List Char)
    (count : Nat) (hs : ¬ path_is_set s) (b : Blob) (t : Node) (e : Int)
    (hl : k.request_firmware (stored_path buf) s.fw = (0, some b))
    (hu : (k.of_fdt_unflatten_tree b s.overlay).2 = some t)
    (hr : k.of_resolve_phandles t = e) (he : e ≠ 0) :
    cfs_overlay_item_path_store k s buf count =
      some ⟨e, { s with path := [], fw := none, overlay := some t },
        [Call.request_firmware (stored_path buf), Call.of_fdt_unflatten_tree b,
         Call.of_node_set_flag t, Call.of_resolve_phandles t,
         Call.release_firmware (some b)]⟩ := by
  subst hr
  simp only [stored_path] at hl
  simp [cfs_overlay_item_path_store, hs, hl, create_overlay, hu, he, stored_path]

theorem path_store_apply_fail (k : Kernel) (s : cfs_overlay_item) (buf : List Char)
    (count : Nat) (hs : ¬ path_is_set s) (b : Blob) (t : Node) (e : Int)
    (hl : k.request_firmware (stored_path buf) s.fw = (0, some b))
    (hu : (k.of_fdt_unflatten_tree b s.overlay).2 = some t)
    (hr : k.of_resolve_phandles t = 0)
    (ha : (k.of_overlay_fdt_apply t s.dtbo_size s.ov_id).1 = e) (he : e < 0) :
    cfs_overlay_item_path_store k s buf count =
      some ⟨e, { s with path := [], fw := none, overlay := some t,
                        ov_id := (k.of_overlay_fdt_apply t s.dtbo_size s.ov_id).2 },
        [Call.request_firmware (stored_path buf), Call.of_fdt_unflatten_tree b,
         Call.of_node_set_flag t, Call.of_resolve_phandles t,
         Call.of_overlay_fdt_apply t s.dtbo_size,
         Call.release_firmware (some b)]⟩ := by
  subst ha
  simp only [stored_path] at hl
  have he' : (k.of_overlay_fdt_apply t s.dtbo_size s.ov_id).1 ≠ 0 := ne_of_lt he
  simp [cfs_overlay_item_path_store, hs, hl, create_overlay, hu, hr, he, he', stored_path]

theorem path_store_success (k : Kernel) (s : cfs_overlay_item) (buf : List Char)
    (count : Nat) (hs : ¬ path_is_set s) (b : Blob) (t : Node) (h : Int)
    (hc : chain_succeeds k s buf b t h) :
    cfs_overlay_item_path_store k s buf count =
      some ⟨((c_str buf).length : Nat),
        { s with path := stored_path buf, fw := some b, overlay := some t, ov_id := h },
        [Call.request_firmware (stored_path buf), Call.of_fdt_unflatten_tree b,
         Call.of_node_set_flag t, Call.of_resolve_phandles t,
         Call.of_overlay_fdt_apply t s.dtbo_size]⟩ := by
  obtain ⟨hl, hu, hr, ha, hh⟩ := hc
  subst hh
  simp only [stored_path] at hl
  have ha' : ¬ (k.of_overlay_fdt_apply t s.dtbo_size s.ov_id).1 < 0 := not_lt.mpr ha
  simp [cfs_overlay_item_path_store, hs, hl, create_overlay, hu, hr, ha', stored_path]
  rfl

theorem make_item_eq (k : Kernel) (name : List Char) (s : cfs_overlay_item)
    (h : cfs_overlay_group_make_item k name = .ok s) :
    s = { item := name, path := [], fw := none, overlay := none, ov_id := -1,
          dtbo := none, dtbo_size := 0 } := by
  unfold cfs_overlay_group_make_item at h
  split at h
  · injection h with h; exact h.symm
  · cases h

theorem not_set_of_path_nil (s : cfs_overlay_item) (hp : s.path = []) (hd : s.dtbo_size ≤ 0) :
    ¬ path_is_set s := by
  unfold path_is_set
  simp [hp, not_lt.mpr hd]

theorem make_item_not_set (k : Kernel) (name : List Char) (s : cfs_overlay_item)
    (h : cfs_overlay_group_make_item k name = .ok s) : ¬ path_is_set s := by
  rw [make_item_eq k name s h]
  exact not_set_of_path_nil _ rfl (le_refl _)

theorem status_show_applied (s : cfs_overlay_item) (h : 0 ≤ s.ov_id) :
    (cfs_overlay_item_status_show s).2 = "applied\n".toList := by
  simp [cfs_overlay_item_status_show, h]

theorem status_show_unapplied (s : cfs_overlay_item) (h : s.ov_id < 0) :
    (cfs_overlay_item_status_show s).2 = "unapplied\n".toList := by
  simp [cfs_overlay_item_status_show, not_le.mpr h]

/-- A write that fails at a step returns the code of the step, clears the path
and the blob pointer and starts with the call of the loader. -/
theorem path_store_of_fails (k : Kernel) (s : cfs_overlay_item) (buf : List Char) (count : Nat)
    (st : Step) (e : Int) (hs : ¬ path_is_set s) (hf : fails_at k s buf st e) :
    ∃ o, cfs_overlay_item_path_store k s buf count = some o ∧ o.ret = e ∧
      o.overlay.path = [] ∧ o.overlay.fw = none ∧ o.overlay.dtbo = s.dtbo ∧
      o.overlay.dtbo_size = s.dtbo_size := by
  cases st with
  | load =>
    obtain ⟨hl, he⟩ := hf
    exact ⟨_, path_store_load_fail k s buf count hs e hl he, rfl, rfl, rfl, rfl, rfl⟩
  | unflatten =>
    obtain ⟨b, hl, hu, he⟩ := hf
    exact ⟨_, path_store_unflatten_fail k s buf count hs b hl hu, he.symm, rfl, rfl, rfl, rfl⟩
  | resolve =>
    obtain ⟨b, t, hl, hu, hr, he⟩ := hf
    exact ⟨_, path_store_resolve_fail k s buf count hs b t e hl hu hr he, rfl, rfl, rfl, rfl, rfl⟩
  | apply =>
    obtain ⟨b, t, hl, hu, hr, ha, he⟩ := hf
    exact ⟨_, path_store_apply_fail k s buf count hs b t e hl hu hr ha he,
      rfl, rfl, rfl, rfl, rfl⟩

/-- A write that is not refused calls the loader first. -/
theorem path_store_calls_head (k : Kernel) (s : cfs_overlay_item) (buf : List Char)
    (count : Nat) (hs : ¬ path_is_set s) (o : Outcome)
    (h : cfs_overlay_item_path_store k s buf count = some o) :
    o.calls.head? = some (Call.request_firmware (stored_path buf)) := by
  unfold cfs_overlay_item_path_store at h
  rw [if_neg hs] at h
  simp only at h
  split at h
  · injection h with h
    subst h
    rfl
  · split at h
    · cases h
    · split at h <;> (injection h with h; subst h; rfl)

/-- The first write of the scenarios of C5, C8 and C10: `a.dtbo` written to the
fresh item `ov` fails at the resolve step. -/
theorem resolve_failure_run :
    cfs_overlay_item_path_store kernel_resolve_fails fresh_ov "a.dtbo".toList 6
      = some ⟨-22, ov_after_resolve_failure,
          [Call.request_firmware "a.dtbo".toList, Call.of_fdt_unflatten_tree 1,
           Call.of_node_set_flag 2, Call.of_resolve_phandles 2,
           Call.release_firmware (some 1)]⟩ := by
  decide

theorem resolve_failure_fails_at :
    fails_at kernel_resolve_fails fresh_ov "a.dtbo".toList Step.resolve (-22) :=
  ⟨1, 2, rfl, rfl, rfl, by decide⟩

theorem never_applied_after_resolve_failure : NeverApplied ov_after_resolve_failure :=
  NeverApplied.store kernel_resolve_fails fresh_ov "a.dtbo".toList 6 Step.resolve (-22) _
    (NeverApplied.make kernel_ok "ov".toList fresh_ov rfl) resolve_failure_fails_at
    resolve_failure_run

/-- An item that never reached Applied has an empty path, no blob, no `dtbo`
buffer and `dtbo_size` zero. -/
theorem never_applied_fields (s : cfs_overlay_item) (h : NeverApplied s) :
    s.path = [] ∧ s.fw = none ∧ s.dtbo = none ∧ s.dtbo_size = 0 := by
  induction h with
  | make k name s hmake =>
    rw [make_item_eq k name s hmake]
    exact ⟨rfl, rfl, rfl, rfl⟩
  | store k s buf count st e o _ hf hstore ih =>
    obtain ⟨hp, _, hd, hz⟩ := ih
    obtain ⟨o', ho', _, h1, h2, h3, h4⟩ :=
      path_store_of_fails k s buf count st e (not_set_of_path_nil s hp (le_of_eq hz)) hf
    rw [hstore] at ho'
    injection ho' with ho'
    subst ho'
    exact ⟨h1, h2, h3.trans hd, h4.trans hz⟩

/-- A write that is not refused and returns has either failed at one of the
four steps, and returns the code of that step, or has seen the four steps
succeed, and returns the length of the text. -/
theorem path_store_cases (k : Kernel) (s : cfs_overlay_item) (buf : List Char) (count : Nat)
    (o : Outcome) (hs : ¬ path_is_set s)
    (ho : cfs_overlay_item_path_store k s buf count = some o) :
    (∃ st e, fails_at k s buf st e ∧ o.ret = e) ∨
    (∃ b t h, chain_succeeds k s buf b t h ∧ o.ret = ((c_str buf).length : Nat)) := by
  by_cases hl : (k.request_firmware (stored_path buf) s.fw).1 = 0
  · cases hfw : (k.request_firmware (stored_path buf) s.fw).2 with
    | none =>
      have hrf : k.request_firmware (stored_path buf) s.fw = (0, none) :=
        Prod.ext hl hfw
      rw [path_store_load_null k s buf count hs hrf] at ho
      cases ho
    | some b =>
      have hrf : k.request_firmware (stored_path buf) s.fw = (0, some b) :=
        Prod.ext hl hfw
      cases hu : (k.of_fdt_unflatten_tree b s.overlay).2 with
      | none =>
        rw [path_store_unflatten_fail k s buf count hs b hrf hu] at ho
        injection ho with ho
        subst ho
        exact Or.inl ⟨Step.unflatten, -EINVAL, ⟨b, hrf, hu, rfl⟩, rfl⟩
      | some t =>
        by_cases hr : k.of_resolve_phandles t = 0
        · by_cases ha : (k.of_overlay_fdt_apply t s.dtbo_size s.ov_id).1 < 0
          · rw [path_store_apply_fail k s buf count hs b t _ hrf hu hr rfl ha] at ho
            injection ho with ho
            subst ho
            exact Or.inl ⟨Step.apply, _, ⟨b, t, hrf, hu, hr, rfl, ha⟩, rfl⟩
          · have hc : chain_succeeds k s buf b t
                (k.of_overlay_fdt_apply t s.dtbo_size s.ov_id).2 :=
              ⟨hrf, hu, hr, not_lt.mp ha, rfl⟩
            rw [path_store_success k s buf count hs b t _ hc] at ho
            injection ho with ho
            subst ho
            exact Or.inr ⟨b, t, _, hc, rfl⟩
        · rw [path_store_resolve_fail k s buf count hs b t _ hrf hu rfl hr] at ho
          injection ho with ho
          subst ho
          exact Or.inl ⟨Step.resolve, _, ⟨b, t, hrf, hu, rfl, hr⟩, rfl⟩
  · rw [path_store_load_fail k s buf count hs _ rfl hl] at ho
    injection ho with ho
    subst ho
    exact Or.inl ⟨Step.load, _, ⟨rfl, hl⟩, rfl⟩

/-- A write that is not refused returns `-EPERM` only when it failed at the
load, resolve or apply step and that step reported `-EPERM`. -/
theorem path_store_eperm_from_step (k : Kernel) (s : cfs_overlay_item) (buf : List Char)
    (count : Nat) (o : Outcome) (hs : ¬ path_is_set s)
    (ho : cfs_overlay_item_path_store k s buf count = some o) (hret : o.ret = -EPERM) :
    ∃ st, st ≠ Step.unflatten ∧ fails_at k s buf st (-EPERM) := by
  rcases path_store_cases k s buf count o hs ho with ⟨st, e, hf, he⟩ | ⟨b, t, h, _, he⟩
  · have hee : e = -EPERM := he.symm.trans hret
    subst hee
    refine ⟨st, ?_, hf⟩
    intro hst
    subst hst
    obtain ⟨_, _, _, hc⟩ := hf
    exact absurd hc (by decide)
  · rw [he] at hret
    have h0 : (0 : Int) ≤ (((c_str buf).length : Nat) : Int) := Int.ofNat_nonneg _
    rw [hret] at h0
    exact absurd h0 (by decide)

/-- A write that is not refused returns, unless the loader reports success and
leaves the blob pointer `NULL`. -/
theorem path_store_returns (k : Kernel) (s : cfs_overlay_item) (buf : List Char) (count : Nat)
    (hs : ¬ path_is_set s)
    (hl : k.request_firmware (stored_path buf) s.fw ≠ (0, none)) :
    ∃ o, cfs_overlay_item_path_store k s buf count = some o := by
  by_cases h0 : (k.request_firmware (stored_path buf) s.fw).1 = 0
  · cases hfw : (k.request_firmware (stored_path buf) s.fw).2 with
    | none => exact absurd (Prod.ext h0 hfw) hl
    | some b =>
      have hrf : k.request_firmware (stored_path buf) s.fw = (0, some b) :=
        Prod.ext h0 hfw
      cases hu : (k.of_fdt_unflatten_tree b s.overlay).2 with
      | none => exact ⟨_, path_store_unflatten_fail k s buf count hs b hrf hu⟩
      | some t =>
        by_cases hr : k.of_resolve_phandles t = 0
        · by_cases ha : (k.of_overlay_fdt_apply t s.dtbo_size s.ov_id).1 < 0
          · exact ⟨_, path_store_apply_fail k s buf count hs b t _ hrf hu hr rfl ha⟩
          · exact ⟨_, path_store_success k s buf count hs b t _
              ⟨hrf, hu, hr, not_lt.mp ha, rfl⟩⟩
        · exact ⟨_, path_store_resolve_fail k s buf count hs b t _ hrf hu rfl hr⟩
  · exact ⟨_, path_store_load_fail k s buf count hs _ rfl h0⟩

/-! ## The claims -/

/-- Counterexample to C1: on the fresh item `ov` the write of `a.dtbo` sees the
four steps succeed, the apply call returning `0` and storing the id `-3`.  The
write returns the count `6`, and `status` then reads `unapplied`. -/
theorem write_success_with_negative_id_reads_unapplied :
    cfs_overlay_group_make_item kernel_ok_negative_id "ov".toList = .ok fresh_ov ∧
    chain_succeeds kernel_ok_negative_id fresh_ov "a.dtbo".toList 1 2 (-3) ∧
    cfs_overlay_item_path_store kernel_ok_negative_id fresh_ov "a.dtbo".toList 6
      = some ⟨6, { fresh_ov with
                    path := "a.dtbo".toList, fw := some 1, overlay := some 2, ov_id := -3 },
          [Call.request_firmware "a.dtbo".toList, Call.of_fdt_unflatten_tree 1,
           Call.of_node_set_flag 2, Call.of_resolve_phandles 2,
           Call.of_overlay_fdt_apply 2 0]⟩ ∧
    (cfs_overlay_item_status_show { fresh_ov with
        path := "a.dtbo".toList, fw := some 1, overlay := some 2, ov_id := -3 }).2
      = "unapplied\n".toList := by
  refine ⟨rfl, ⟨rfl, rfl, rfl, by decide, rfl⟩, ?_, ?_⟩ <;> decide

/-- C1 (amended): on a freshly made item, for every text written to `path`,
when load, unflatten, resolve and apply all succeed and apply stores a
non-negative handle id `h`, the write returns a non-negative count, `status`
then reads `applied`, `path` reads the stored identifier followed by a newline,
and the loaded blob is still held by the item and was not released. -/
theorem write_success_reads_applied (k0 k : Kernel) (name buf : List Char) (count : Nat)
    (s : cfs_overlay_item) (b : Blob) (t : Node) (h : Int)
    (hmake : cfs_overlay_group_make_item k0 name = .ok s)
    (hc : chain_succeeds k s buf b t h) (hh : 0 ≤ h) :
    ∃ o, cfs_overlay_item_path_store k s buf count = some o ∧
      0 ≤ o.ret ∧
      (cfs_overlay_item_status_show o.overlay).2 = "applied\n".toList ∧
      o.overlay.path = stored_path buf ∧
      (cfs_overlay_item_path_show o.overlay).2 = stored_path buf ++ ['\n'] ∧
      o.overlay.ov_id = h ∧
      o.overlay.fw = some b ∧ ∀ fw, Call.release_firmware fw ∉ o.calls := by
  refine ⟨_, path_store_success k s buf count (make_item_not_set k0 name s hmake) b t h hc,
    ?_, ?_, rfl, rfl, rfl, rfl, ?_⟩
  · exact Int.ofNat_nonneg _
  · exact status_show_applied _ hh
  · intro fw; simp

/-- Witness of C1 (amended): Scenario A, `valid.dtbo` written to the fresh item `ov`. -/
theorem write_success_reads_applied_witness :
    ∃ o, cfs_overlay_item_path_store kernel_ok fresh_ov "valid.dtbo\n".toList 11 = some o ∧
      0 ≤ o.ret ∧
      (cfs_overlay_item_status_show o.overlay).2 = "applied\n".toList ∧
      o.overlay.path = stored_path "valid.dtbo\n".toList ∧
      (cfs_overlay_item_path_show o.overlay).2 = stored_path "valid.dtbo\n".toList ++ ['\n'] ∧
      o.overlay.ov_id = 7 ∧
      o.overlay.fw = some 1 ∧ ∀ fw, Call.release_firmware fw ∉ o.calls :=
  write_success_reads_applied kernel_ok kernel_ok "ov".toList "valid.dtbo\n".toList 11
    fresh_ov 1 2 7 rfl ⟨rfl, rfl, rfl, by decide, rfl⟩ (by decide)

/-- Counterexample to C2: on the fresh item `ov` the text of one newline is
written while every step succeeds.  The write returns `1` and `status` reads
`applied`, but the stored path is empty, so the write of `other.dtbo` that
follows is not refused: it returns `10`, not `-EPERM`, and loads and applies
again. -/
theorem second_write_after_empty_path_accepted :
    cfs_overlay_group_make_item kernel_ok "ov".toList = .ok fresh_ov ∧
    cfs_overlay_item_path_store kernel_ok fresh_ov "\n".toList 1
      = some ⟨1, ov_applied_empty_path,
          [Call.request_firmware [], Call.of_fdt_unflatten_tree 1, Call.of_node_set_flag 2,
           Call.of_resolve_phandles 2, Call.of_overlay_fdt_apply 2 0]⟩ ∧
    (cfs_overlay_item_status_show ov_applied_empty_path).2 = "applied\n".toList ∧
    cfs_overlay_item_path_store kernel_ok ov_applied_empty_path "other.dtbo".toList 10
      = some ⟨10, { ov_applied_empty_path with path := "other.dtbo".toList },
          [Call.request_firmware "other.dtbo".toList, Call.of_fdt_unflatten_tree 1,
           Call.of_node_set_flag 2, Call.of_resolve_phandles 2,
           Call.of_overlay_fdt_apply 2 0]⟩ ∧
    (10 : Int) ≠ -EPERM := by
  refine ⟨rfl, ?_, ?_, ?_, ?_⟩ <;> decide

/-- C2 (amended): on every item whose path is not set, when the first write
succeeds with handle id `h ≥ 0` and the path it stores is not empty, `status`
reads `applied`, and every second write returns `-EPERM`, makes no call and
leaves the item, hence what `path` and `status` read, as it was. -/
theorem second_write_denied (k1 k2 : Kernel) (s : cfs_overlay_item) (buf1 buf2 : List Char)
    (count1 count2 : Nat) (b : Blob) (t : Node) (h : Int)
    (hs : ¬ path_is_set s) (hc : chain_succeeds k1 s buf1 b t h) (hh : 0 ≤ h)
    (hne : stored_path buf1 ≠ []) :
    ∃ o1, cfs_overlay_item_path_store k1 s buf1 count1 = some o1 ∧
      (cfs_overlay_item_status_show o1.overlay).2 = "applied\n".toList ∧
      (cfs_overlay_item_path_show o1.overlay).2 = stored_path buf1 ++ ['\n'] ∧
      ∃ o2, cfs_overlay_item_path_store k2 o1.overlay buf2 count2 = some o2 ∧
        o2.ret = -EPERM ∧ o2.calls = [] ∧ o2.overlay = o1.overlay ∧
        cfs_overlay_item_path_show o2.overlay = cfs_overlay_item_path_show o1.overlay ∧
        cfs_overlay_item_status_show o2.overlay = cfs_overlay_item_status_show o1.overlay := by
  refine ⟨_, path_store_success k1 s buf1 count1 hs b t h hc, status_show_applied _ hh, rfl,
    _, path_store_of_set k2 _ buf2 count2 (Or.inl hne), rfl, rfl, rfl, rfl, rfl⟩

/-- Witness of C2 (amended): Scenario D, `valid.dtbo` then `other.dtbo`. -/
theorem second_write_denied_witness :
    ∃ o1, cfs_overlay_item_path_store kernel_ok fresh_ov "valid.dtbo".toList 10 = some o1 ∧
      (cfs_overlay_item_status_show o1.overlay).2 = "applied\n".toList ∧
      (cfs_overlay_item_path_show o1.overlay).2 = stored_path "valid.dtbo".toList ++ ['\n'] ∧
      ∃ o2, cfs_overlay_item_path_store kernel_ok o1.overlay "other.dtbo".toList 10 = some o2 ∧
        o2.ret = -EPERM ∧ o2.calls = [] ∧ o2.overlay = o1.overlay ∧
        cfs_overlay_item_path_show o2.overlay = cfs_overlay_item_path_show o1.overlay ∧
        cfs_overlay_item_status_show o2.overlay = cfs_overlay_item_status_show o1.overlay :=
  second_write_denied kernel_ok kernel_ok fresh_ov "valid.dtbo".toList "other.dtbo".toList
    10 10 1 2 7 (by decide) ⟨rfl, rfl, rfl, by decide, rfl⟩ (by decide) (by decide)

/-- On every item whose path is not set, when the code aborts a write at load,
unflatten, resolve or apply, the write returns, the stored path is empty
(`path` reads as the empty string), the blob pointer is `NULL`, and when the
load had given blob `b` the write called `release_firmware` exactly once, on
`b`. -/
theorem failed_write_clears_path_and_blob (k : Kernel) (s : cfs_overlay_item)
    (buf : List Char) (count : Nat) (st : Step) (e : Int)
    (hs : ¬ path_is_set s) (hf : fails_at k s buf st e) :
    ∃ o, cfs_overlay_item_path_store k s buf count = some o ∧
      o.overlay.path = [] ∧
      (cfs_overlay_item_path_show o.overlay).2 = ['\n'] ∧
      o.overlay.fw = none ∧
      ∀ b, k.request_firmware (stored_path buf) s.fw = (0, some b) →
        o.calls.filter is_release_firmware = [Call.release_firmware (some b)] ∧
        o.calls.count (Call.release_firmware (some b)) = 1 := by
  cases st with
  | load =>
    obtain ⟨hl, he⟩ := hf
    refine ⟨_, path_store_load_fail k s buf count hs e hl he, rfl, rfl, rfl, ?_⟩
    intro b hb
    rw [hb] at hl
    exact absurd hl.symm he
  | unflatten =>
    obtain ⟨b, hl, hu, _⟩ := hf
    refine ⟨_, path_store_unflatten_fail k s buf count hs b hl hu, rfl, rfl, rfl, ?_⟩
    intro b' hb
    rw [hl] at hb
    obtain rfl : b = b' := by simpa using hb
    simp [is_release_firmware]
  | resolve =>
    obtain ⟨b, t, hl, hu, hr, he⟩ := hf
    refine ⟨_, path_store_resolve_fail k s buf count hs b t e hl hu hr he, rfl, rfl, rfl, ?_⟩
    intro b' hb
    rw [hl] at hb
    obtain rfl : b = b' := by simpa using hb
    simp [is_release_firmware]
  | apply =>
    obtain ⟨b, t, hl, hu, hr, ha, he⟩ := hf
    refine ⟨_, path_store_apply_fail k s buf count hs b t e hl hu hr ha he, rfl, rfl, rfl, ?_⟩
    intro b' hb
    rw [hl] at hb
    obtain rfl : b = b' := by simpa using hb
    simp [is_release_firmware]


/-- C3 (the code at the failing input): the item left by a write that failed
at resolve still points to tree `2`.  On the retry `b.dtbo` the load gives blob
`3` and unflattening fails: it returns `NULL` and leaves the tree pointer
alone.  When the write has returned, the stored path is `b.dtbo`, not the empty
string, the item still holds blob `3`, and `release_firmware` was not
called. -/
theorem failed_unflatten_on_retry_keeps_path_and_blob :
    Reachable ov_after_resolve_failure ∧
    (kernel_unflatten_stale.of_fdt_unflatten_tree 3 ov_after_resolve_failure.overlay).1
      = none ∧
    cfs_overlay_item_path_store kernel_unflatten_stale ov_after_resolve_failure
        "b.dtbo".toList 6
      = some ⟨6, ov_after_stale_retry,
          [Call.request_firmware "b.dtbo".toList, Call.of_fdt_unflatten_tree 3,
           Call.of_node_set_flag 2, Call.of_resolve_phandles 2,
           Call.of_overlay_fdt_apply 2 0]⟩ ∧
    (cfs_overlay_item_path_show ov_after_stale_retry).2 = "b.dtbo\n".toList ∧
    ov_after_stale_retry.path ≠ [] ∧
    ov_after_stale_retry.fw = some 3 ∧
    (cfs_overlay_item_path_store kernel_unflatten_stale ov_after_resolve_failure
        "b.dtbo".toList 6).map (fun o => o.calls.filter is_release_firmware)
      = some ([] : List Call) := by
  refine ⟨Reachable.store kernel_resolve_fails fresh_ov "a.dtbo".toList 6 _
    (Reachable.make kernel_ok "ov".toList fresh_ov rfl) resolve_failure_run,
    rfl, ?_, ?_, ?_, rfl, ?_⟩ <;> decide

/-- C4 (the code at the failing input): on the fresh item `ov`, the write of
`a.dtbo` fails at the apply step, which stored id `7` through its
out-parameter before it returned `-22`.  The write returns `-22` and clears the
path, and `status` then reads `applied`. -/
theorem failed_apply_reads_applied :
    cfs_overlay_group_make_item kernel_apply_fails "ov".toList = .ok fresh_ov ∧
    fails_at kernel_apply_fails fresh_ov "a.dtbo".toList Step.apply (-22) ∧
    (cfs_overlay_item_path_store kernel_apply_fails fresh_ov "a.dtbo".toList 6).map
        (fun o => (o.ret, o.overlay.path, o.overlay.ov_id,
          (cfs_overlay_item_status_show o.overlay).2))
      = some (-22, [], 7, "applied\n".toList) := by
  refine ⟨rfl, ⟨1, 2, rfl, rfl, rfl, rfl, by decide⟩, by decide⟩

/-- Counterexample to C5: the write of `a.dtbo` to the fresh item `ov` fails at
the resolve step after unflattening gave tree `2`.  The only release it makes
is that of the blob, and the item it leaves, reachable from `make_item`, holds
tree `2` while its overlay handle is `-1`. -/
theorem tree_kept_after_failed_resolve :
    cfs_overlay_item_path_store kernel_resolve_fails fresh_ov "a.dtbo".toList 6
      = some ⟨-22, ov_after_resolve_failure,
          [Call.request_firmware "a.dtbo".toList, Call.of_fdt_unflatten_tree 1,
           Call.of_node_set_flag 2, Call.of_resolve_phandles 2,
           Call.release_firmware (some 1)]⟩ ∧
    Reachable ov_after_resolve_failure ∧
    ov_after_resolve_failure.overlay = some 2 ∧ ov_after_resolve_failure.ov_id = -1 := by
  exact ⟨resolve_failure_run, Reachable.store kernel_resolve_fails fresh_ov "a.dtbo".toList 6 _
    (Reachable.make kernel_ok "ov".toList fresh_ov rfl) resolve_failure_run, rfl, rfl⟩

/-- C5 (amended): on every item whose path is not set, when resolve or apply
fails after unflattening left tree `t`, the write releases the blob and nothing
else, and the tree pointer still holds `t` once the write has returned. -/
theorem failed_write_keeps_tree (k : Kernel) (s : cfs_overlay_item) (buf : List Char)
    (count : Nat) (b : Blob) (t : Node) (e : Int)
    (hs : ¬ path_is_set s)
    (hl : k.request_firmware (stored_path buf) s.fw = (0, some b))
    (hu : (k.of_fdt_unflatten_tree b s.overlay).2 = some t)
    (hf : fails_at k s buf Step.resolve e ∨ fails_at k s buf Step.apply e) :
    ∃ o, cfs_overlay_item_path_store k s buf count = some o ∧
      o.ret = e ∧ o.overlay.overlay = some t ∧ o.overlay.fw = none ∧ o.overlay.path = [] ∧
      (o.calls =
          [Call.request_firmware (stored_path buf), Call.of_fdt_unflatten_tree b,
           Call.of_node_set_flag t, Call.of_resolve_phandles t,
           Call.release_firmware (some b)] ∨
       o.calls =
          [Call.request_firmware (stored_path buf), Call.of_fdt_unflatten_tree b,
           Call.of_node_set_flag t, Call.of_resolve_phandles t,
           Call.of_overlay_fdt_apply t s.dtbo_size,
           Call.release_firmware (some b)]) := by
  rcases hf with hf | hf
  · obtain ⟨b', t', hl', hu', hr, he⟩ := hf
    rw [hl] at hl'
    obtain rfl : b = b' := by simpa using hl'
    rw [hu] at hu'
    obtain rfl : t = t' := by simpa using hu'
    exact ⟨_, path_store_resolve_fail k s buf count hs b t e hl hu hr he,
      rfl, rfl, rfl, rfl, Or.inl rfl⟩
  · obtain ⟨b', t', hl', hu', hr, ha, he⟩ := hf
    rw [hl] at hl'
    obtain rfl : b = b' := by simpa using hl'
    rw [hu] at hu'
    obtain rfl : t = t' := by simpa using hu'
    exact ⟨_, path_store_apply_fail k s buf count hs b t e hl hu hr ha he,
      rfl, rfl, rfl, rfl, Or.inr rfl⟩

/-- Witness of C5 (amended): the resolve step fails on the fresh item `ov`. -/
theorem failed_write_keeps_tree_witness :
    ∃ o, cfs_overlay_item_path_store kernel_resolve_fails fresh_ov "a.dtbo".toList 6 = some o ∧
      o.ret = -22 ∧ o.overlay.overlay = some 2 ∧ o.overlay.fw = none ∧ o.overlay.path = [] ∧
      (o.calls =
          [Call.request_firmware (stored_path "a.dtbo".toList), Call.of_fdt_unflatten_tree 1,
           Call.of_node_set_flag 2, Call.of_resolve_phandles 2,
           Call.release_firmware (some 1)] ∨
       o.calls =
          [Call.request_firmware (stored_path "a.dtbo".toList), Call.of_fdt_unflatten_tree 1,
           Call.of_node_set_flag 2, Call.of_resolve_phandles 2,
           Call.of_overlay_fdt_apply 2 fresh_ov.dtbo_size,
           Call.release_firmware (some 1)]) :=
  failed_write_keeps_tree kernel_resolve_fails fresh_ov "a.dtbo".toList 6 1 2 (-22)
    (by decide) rfl rfl (Or.inl ⟨1, 2, rfl, rfl, rfl, by decide⟩)

/-- Counterexample to C6: the write of `missing.dtbo` to the fresh item `ov`
fails at the load step and leaves the item as it was.  A further write whose
loader reports `-EPERM` returns `-EPERM`; and a further write whose four steps
succeed, the apply call storing the id `-3`, returns the count `10` and leaves
`status` reading `unapplied`. -/
theorem retry_can_return_eperm_or_read_unapplied :
    fails_at kernel_load_fails fresh_ov "missing.dtbo".toList Step.load (-2) ∧
    cfs_overlay_item_path_store kernel_load_fails fresh_ov "missing.dtbo".toList 12
      = some ⟨-2, fresh_ov,
          [Call.request_firmware "missing.dtbo".toList, Call.release_firmware none]⟩ ∧
    cfs_overlay_item_path_store kernel_load_eperm fresh_ov "valid.dtbo".toList 10
      = some ⟨-EPERM, fresh_ov,
          [Call.request_firmware "valid.dtbo".toList, Call.release_firmware none]⟩ ∧
    chain_succeeds kernel_ok_negative_id fresh_ov "valid.dtbo".toList 1 2 (-3) ∧
    cfs_overlay_item_path_store kernel_ok_negative_id fresh_ov "valid.dtbo".toList 10
      = some ⟨10, { fresh_ov with
                     path := "valid.dtbo".toList, fw := some 1, overlay := some 2,
                     ov_id := -3 },
          [Call.request_firmware "valid.dtbo".toList, Call.of_fdt_unflatten_tree 1,
           Call.of_node_set_flag 2, Call.of_resolve_phandles 2,
           Call.of_overlay_fdt_apply 2 0]⟩ ∧
    (cfs_overlay_item_status_show { fresh_ov with
        path := "valid.dtbo".toList, fw := some 1, overlay := some 2, ov_id := -3 }).2
      = "unapplied\n".toList := by
  refine ⟨⟨rfl, by decide⟩, ?_, ?_, ⟨rfl, rfl, rfl, by decide, rfl⟩, ?_, ?_⟩ <;> decide

/-- C6 (amended): on every item whose path is not set, after a write that
failed at load, unflatten, resolve or apply, the path is again not set, so no
further write is refused by the write-once test: a further write returns
(unless the loader reports success with a `NULL` blob), it has then called the
loader first, and it returns `-EPERM` only when its load, resolve or apply
step failed and reported `-EPERM`; a further write
whose four steps succeed with a non-negative handle id `h` returns the
non-negative count and leaves `status` reading `applied`. -/
theorem retry_after_failed_write (k1 k2 : Kernel) (s : cfs_overlay_item)
    (buf1 buf2 : List Char) (count1 count2 : Nat) (st : Step) (e : Int)
    (hs : ¬ path_is_set s) (hf : fails_at k1 s buf1 st e) :
    ∃ o1, cfs_overlay_item_path_store k1 s buf1 count1 = some o1 ∧
      ¬ path_is_set o1.overlay ∧
      cfs_overlay_item_path_store k2 o1.overlay buf2 count2 ≠ some ⟨-EPERM, o1.overlay, []⟩ ∧
      (k2.request_firmware (stored_path buf2) o1.overlay.fw ≠ (0, none) →
        ∃ o2, cfs_overlay_item_path_store k2 o1.overlay buf2 count2 = some o2) ∧
      (∀ o2, cfs_overlay_item_path_store k2 o1.overlay buf2 count2 = some o2 →
        o2.calls.head? = some (Call.request_firmware (stored_path buf2)) ∧
        (o2.ret = -EPERM →
          ∃ st2, st2 ≠ Step.unflatten ∧ fails_at k2 o1.overlay buf2 st2 (-EPERM))) ∧
      ∀ b t h, chain_succeeds k2 o1.overlay buf2 b t h → 0 ≤ h →
        ∃ o2, cfs_overlay_item_path_store k2 o1.overlay buf2 count2 = some o2 ∧
          o2.ret = ((c_str buf2).length : Nat) ∧ 0 ≤ o2.ret ∧
          o2.overlay.path = stored_path buf2 ∧
          (cfs_overlay_item_status_show o2.overlay).2 = "applied\n".toList ∧
          o2.calls = [Call.request_firmware (stored_path buf2), Call.of_fdt_unflatten_tree b,
            Call.of_node_set_flag t, Call.of_resolve_phandles t,
            Call.of_overlay_fdt_apply t o1.overlay.dtbo_size] := by
  obtain ⟨o1, ho1, _, hp, _, _, hz⟩ := path_store_of_fails k1 s buf1 count1 st e hs hf
  have hd : o1.overlay.dtbo_size ≤ 0 := by
    rw [hz]
    exact not_lt.mp (fun h => hs (Or.inr h))
  have hs1 : ¬ path_is_set o1.overlay := not_set_of_path_nil _ hp hd
  refine ⟨o1, ho1, hs1, ?_, path_store_returns k2 o1.overlay buf2 count2 hs1, ?_, ?_⟩
  · intro h
    have := path_store_calls_head k2 o1.overlay buf2 count2 hs1 _ h
    simp at this
  · intro o2 h
    exact ⟨path_store_calls_head k2 o1.overlay buf2 count2 hs1 o2 h,
      path_store_eperm_from_step k2 o1.overlay buf2 count2 o2 hs1 h⟩
  · intro b t h hc hh
    exact ⟨_, path_store_success k2 o1.overlay buf2 count2 hs1 b t h hc, rfl,
      Int.ofNat_nonneg _, rfl, status_show_applied _ hh, rfl⟩

/-- Witness of C6 (amended): Scenario B, `missing.dtbo` is not found, then a
retry. -/
theorem retry_after_failed_write_witness :
    ∃ o1, cfs_overlay_item_path_store kernel_load_fails fresh_ov "missing.dtbo".toList 12
        = some o1 ∧
      ¬ path_is_set o1.overlay ∧
      cfs_overlay_item_path_store kernel_ok o1.overlay "valid.dtbo".toList 10
        ≠ some ⟨-EPERM, o1.overlay, []⟩ ∧
      (kernel_ok.request_firmware (stored_path "valid.dtbo".toList) o1.overlay.fw
          ≠ (0, none) →
        ∃ o2, cfs_overlay_item_path_store kernel_ok o1.overlay "valid.dtbo".toList 10
          = some o2) ∧
      (∀ o2, cfs_overlay_item_path_store kernel_ok o1.overlay "valid.dtbo".toList 10 = some o2 →
        o2.calls.head? = some (Call.request_firmware (stored_path "valid.dtbo".toList)) ∧
        (o2.ret = -EPERM →
          ∃ st2, st2 ≠ Step.unflatten ∧
            fails_at kernel_ok o1.overlay "valid.dtbo".toList st2 (-EPERM))) ∧
      ∀ b t h, chain_succeeds kernel_ok o1.overlay "valid.dtbo".toList b t h → 0 ≤ h →
        ∃ o2, cfs_overlay_item_path_store kernel_ok o1.overlay "valid.dtbo".toList 10
            = some o2 ∧
          o2.ret = ((c_str "valid.dtbo".toList).length : Nat) ∧ 0 ≤ o2.ret ∧
          o2.overlay.path = stored_path "valid.dtbo".toList ∧
          (cfs_overlay_item_status_show o2.overlay).2 = "applied\n".toList ∧
          o2.calls = [Call.request_firmware (stored_path "valid.dtbo".toList),
            Call.of_fdt_unflatten_tree b,
            Call.of_node_set_flag t, Call.of_resolve_phandles t,
            Call.of_overlay_fdt_apply t o1.overlay.dtbo_size] :=
  retry_after_failed_write kernel_load_fails kernel_ok fresh_ov "missing.dtbo".toList
    "valid.dtbo".toList 12 10 Step.load (-2) (by decide) ⟨rfl, by decide⟩

/-- C8 (the code at the failing input): the item left by a write that failed
at resolve still points to tree `2`.  On the retry `b.dtbo` the load gives blob
`3` and unflattening fails: it returns `NULL` and leaves the tree pointer
alone.  The write does not return `-EINVAL`: it resolves and applies the old
tree `2` and returns the count `6`, and `status` reads `applied`. -/
theorem failed_unflatten_on_retry_is_applied :
    cfs_overlay_item_path_store kernel_resolve_fails fresh_ov "a.dtbo".toList 6
      = some ⟨-22, ov_after_resolve_failure,
          [Call.request_firmware "a.dtbo".toList, Call.of_fdt_unflatten_tree 1,
           Call.of_node_set_flag 2, Call.of_resolve_phandles 2,
           Call.release_firmware (some 1)]⟩ ∧
    kernel_unflatten_stale.of_fdt_unflatten_tree 3 ov_after_resolve_failure.overlay
      = (none, some 2) ∧
    cfs_overlay_item_path_store kernel_unflatten_stale ov_after_resolve_failure
        "b.dtbo".toList 6
      = some ⟨6, { ov_after_resolve_failure with
                    path := "b.dtbo".toList, fw := some 3, ov_id := 7 },
          [Call.request_firmware "b.dtbo".toList, Call.of_fdt_unflatten_tree 3,
           Call.of_node_set_flag 2, Call.of_resolve_phandles 2,
           Call.of_overlay_fdt_apply 2 0]⟩ ∧
    (cfs_overlay_item_status_show { ov_after_resolve_failure with
        path := "b.dtbo".toList, fw := some 3, ov_id := 7 }).2 = "applied\n".toList := by
  refine ⟨resolve_failure_run, rfl, ?_, ?_⟩ <;> decide

/-- Counterexample to C10: the item left by a write that failed at resolve
never reached Applied and still holds tree `2`; its release frees the `NULL`
`dtbo` buffer and the item, and does nothing for the tree. -/
theorem release_leaves_tree_of_failed_write :
    NeverApplied ov_after_resolve_failure ∧
    ov_after_resolve_failure.overlay = some 2 ∧
    cfs_overlay_release kernel_ok ov_after_resolve_failure
      = [Call.kfree_dtbo none, Call.kfree_overlay] :=
  ⟨never_applied_after_resolve_failure, rfl, by decide⟩

/-- C10 (amended): the release of an item that never reached Applied (fresh, or
after any number of failed writes) and whose overlay handle is negative calls
no overlay removal and no blob release (the item holds no blob); it frees the
`NULL` `dtbo` buffer and the item and nothing else, whether or not the item
holds a tree. -/
theorem release_of_never_applied (k : Kernel) (s : cfs_overlay_item)
    (hs : NeverApplied s) (hid : s.ov_id < 0) :
    cfs_overlay_release k s = [Call.kfree_dtbo none, Call.kfree_overlay] ∧
    (cfs_overlay_release k s).filter is_overlay_remove = [] ∧
    (cfs_overlay_release k s).filter is_release_firmware = [] ∧
    s.fw = none := by
  obtain ⟨_, hfw, hd, _⟩ := never_applied_fields s hs
  have h : cfs_overlay_release k s = [Call.kfree_dtbo none, Call.kfree_overlay] := by
    simp [cfs_overlay_release, not_le.mpr hid, hfw, hd]
  rw [h]
  exact ⟨rfl, rfl, rfl, hfw⟩

/-- Witness of C10 (amended): the item left by a write that failed at resolve. -/
theorem release_of_never_applied_witness :
    cfs_overlay_release kernel_ok ov_after_resolve_failure
      = [Call.kfree_dtbo none, Call.kfree_overlay] ∧
    (cfs_overlay_release kernel_ok ov_after_resolve_failure).filter is_overlay_remove = [] ∧
    (cfs_overlay_release kernel_ok ov_after_resolve_failure).filter is_release_firmware = [] ∧
    ov_after_resolve_failure.fw = none :=
  release_of_never_applied kernel_ok ov_after_resolve_failure
    never_applied_after_resolve_failure (by decide)

/-! ## The stored path -/

theorem strip_trailing_newlines_eq (l : List Char) :
    strip_trailing_newlines l.length l = without_trailing_newlines l := by
  induction l using List.reverseRecOn with
  | nil => simp [strip_trailing_newlines, without_trailing_newlines]
  | append_singleton l a ih =>
    have hlen : (l ++ [a]).length = l.length + 1 := by simp
    rw [hlen]
    unfold strip_trailing_newlines
    by_cases ha : a = '\n'
    · subst ha
      simp [without_trailing_newlines, List.rdropWhile_concat_pos] at ih ⊢
      exact ih
    · simp [without_trailing_newlines, List.rdropWhile_concat_neg, ha]

theorem stored_path_eq (buf : List Char) :
    stored_path buf = without_trailing_newlines ((c_str buf).take (PATH_MAX - 2)) := by
  unfold stored_path snprintf
  exact strip_trailing_newlines_eq _

theorem c_str_no_nul (buf : List Char) : ∀ c ∈ c_str buf, c ≠ '\x00' := by
  intro c hc
  have := List.mem_takeWhile_imp hc
  simpa using this

theorem c_str_of_no_nul (l : List Char) (h : ∀ c ∈ l, c ≠ '\x00') : c_str l = l := by
  unfold c_str
  rw [List.takeWhile_eq_self_iff]
  intro x hx
  simpa using h x hx

theorem without_trailing_newlines_initial (l : List Char) :
    without_trailing_newlines l <+: l :=
  List.rdropWhile_prefix _ _

theorem stored_path_initial (buf : List Char) :
    stored_path buf <+: (c_str buf).take (PATH_MAX - 2) := by
  rw [stored_path_eq]
  exact without_trailing_newlines_initial _

theorem stored_path_length_le (buf : List Char) :
    (stored_path buf).length ≤ PATH_MAX - 2 ∧
    (stored_path buf).length ≤ (c_str buf).length := by
  have h := (stored_path_initial buf).length_le
  rw [List.length_take] at h
  exact ⟨le_trans h (min_le_left _ _), le_trans h (min_le_right _ _)⟩

theorem stored_path_no_nul (buf : List Char) : ∀ c ∈ stored_path buf, c ≠ '\x00' := by
  intro c hc
  have h1 := (stored_path_initial buf).subset hc
  exact c_str_no_nul buf c (List.mem_of_mem_take h1)

theorem stored_path_of_fits (buf : List Char) (h : (c_str buf).length ≤ PATH_MAX - 2) :
    stored_path buf = without_trailing_newlines (c_str buf) := by
  rw [stored_path_eq, List.take_of_length_le h]

theorem stored_path_idem (buf : List Char) : stored_path (stored_path buf) = stored_path buf := by
  rw [stored_path_eq (stored_path buf), c_str_of_no_nul _ (stored_path_no_nul buf),
    List.take_of_length_le (stored_path_length_le buf).1, stored_path_eq buf]
  exact List.rdropWhile_idempotent _ _

/-! ## What no write changes -/

theorem create_overlay_frame (k : Kernel) (s : cfs_overlay_item) (blob : Blob) :
    (create_overlay k s blob).overlay.item = s.item ∧
    (create_overlay k s blob).overlay.path = s.path ∧
    (create_overlay k s blob).overlay.fw = s.fw ∧
    (create_overlay k s blob).overlay.dtbo = s.dtbo ∧
    (create_overlay k s blob).overlay.dtbo_size = s.dtbo_size ∧
    ∀ t size, Call.of_overlay_fdt_apply t size ∈ (create_overlay k s blob).calls →
      size = s.dtbo_size := by
  unfold create_overlay
  simp only
  split
  · simp
  · split
    · simp
    · split <;> simp

theorem path_store_frame (k : Kernel) (s : cfs_overlay_item) (buf : List Char) (count : Nat)
    (o : Outcome) (h : cfs_overlay_item_path_store k s buf count = some o) :
    o.overlay.item = s.item ∧ o.overlay.dtbo = s.dtbo ∧ o.overlay.dtbo_size = s.dtbo_size ∧
    ∀ t size, Call.of_overlay_fdt_apply t size ∈ o.calls → size = s.dtbo_size := by
  unfold cfs_overlay_item_path_store at h
  split at h
  · injection h with h
    subst h
    simp
  · simp only at h
    split at h
    · injection h with h
      subst h
      simp
    · split at h
      · cases h
      · rename_i fw _
        obtain ⟨h1, _, _, h4, h5, h6⟩ := create_overlay_frame k
          { s with
            path := strip_trailing_newlines (snprintf (PATH_MAX - 1) (c_str buf)).1.length
              (snprintf (PATH_MAX - 1) (c_str buf)).1
            fw := (k.request_firmware
              (strip_trailing_newlines (snprintf (PATH_MAX - 1) (c_str buf)).1.length
                (snprintf (PATH_MAX - 1) (c_str buf)).1) s.fw).2 } fw
        split at h <;>
        · injection h with h
          subst h
          refine ⟨h1, h4, h5, ?_⟩
          intro t size hm
          simp only [List.mem_append, List.mem_singleton, List.mem_cons, List.not_mem_nil,
            reduceCtorEq, or_false, false_or] at hm
          exact h6 t size hm

/-- In every item reachable from `make_item` the `dtbo` buffer is `NULL` and
`dtbo_size` is zero. -/
theorem reachable_dtbo (s : cfs_overlay_item) (h : Reachable s) :
    s.dtbo = none ∧ s.dtbo_size = 0 := by
  induction h with
  | make k name s hmake =>
    rw [make_item_eq k name s hmake]
    exact ⟨rfl, rfl⟩
  | store k s buf count o _ hstore ih =>
    obtain ⟨_, h2, h3, _⟩ := path_store_frame k s buf count o hstore
    exact ⟨h2.trans ih.1, h3.trans ih.2⟩

theorem reachable_set_iff (s : cfs_overlay_item) (h : Reachable s) :
    path_is_set s ↔ s.path ≠ [] := by
  unfold path_is_set
  rw [(reachable_dtbo s h).2]
  simp

/-! ## The claims on teardown, status and creation -/

/-- Counterexample to C11: the item applied by the write of `valid.dtbo` holds
tree `2` and no `dtbo` buffer.  Its release removes the overlay, releases the
blob, passes the `NULL` `dtbo` buffer to `kfree` and frees the item: nothing
is done for the tree, and the calls are the same as for the item without the
tree. -/
theorem release_does_nothing_for_tree :
    cfs_overlay_item_path_store kernel_ok fresh_ov "valid.dtbo".toList 10
      = some ⟨10, ov_applied,
          [Call.request_firmware "valid.dtbo".toList, Call.of_fdt_unflatten_tree 1,
           Call.of_node_set_flag 2, Call.of_resolve_phandles 2,
           Call.of_overlay_fdt_apply 2 0]⟩ ∧
    ov_applied.overlay = some 2 ∧ ov_applied.dtbo = none ∧
    cfs_overlay_release kernel_ok ov_applied
      = [Call.of_overlay_remove 7, Call.release_firmware (some 1),
         Call.kfree_dtbo none, Call.kfree_overlay] ∧
    cfs_overlay_release kernel_ok { ov_applied with overlay := none }
      = cfs_overlay_release kernel_ok ov_applied := by
  refine ⟨?_, rfl, rfl, ?_, ?_⟩ <;> decide

/-- C11 (amended): for every item and every kernel, the calls of
`cfs_overlay_release` come in the order overlay removal, blob release, `kfree`
of the `dtbo` buffer, `kfree` of the item, and there is no other call.  The
removal is made exactly when `ov_id >= 0`, with `ov_id`; the blob release
exactly when `fw` is not `NULL`, with `fw`; an absent overlay or blob is
skipped, and the `dtbo` buffer is passed to `kfree` also when it is `NULL`; the
item is freed last.  The unflattened tree is not released: the calls do not
depend on the tree pointer. -/
theorem release_in_order (k : Kernel) (s : cfs_overlay_item) :
    List.Pairwise (fun a b => a < b) ((cfs_overlay_release k s).map release_rank) ∧
    (∀ c ∈ cfs_overlay_release k s, release_rank c < 4) ∧
    (∀ id, Call.of_overlay_remove id ∈ cfs_overlay_release k s ↔ 0 ≤ s.ov_id ∧ id = s.ov_id) ∧
    (∀ fw, Call.release_firmware fw ∈ cfs_overlay_release k s ↔ fw = s.fw ∧ s.fw ≠ none) ∧
    (∀ d, Call.kfree_dtbo d ∈ cfs_overlay_release k s ↔ d = s.dtbo) ∧
    (cfs_overlay_release k s).getLast? = some Call.kfree_overlay ∧
    ∀ tree, cfs_overlay_release k { s with overlay := tree } = cfs_overlay_release k s := by
  unfold cfs_overlay_release
  by_cases hid : 0 ≤ s.ov_id <;> cases hfw : s.fw <;>
    simp [hid, hfw, release_rank, eq_comm]

/-- Counterexample to C12: the write of `a.dtbo` to the fresh item `ov` fails
at an apply step that stored `-2` through its out-parameter.  The item it
leaves has an overlay handle that is not the sentinel `-1`, and `status` reads
`unapplied`. -/
theorem status_unapplied_for_negative_id :
    cfs_overlay_item_path_store kernel_apply_negative_id fresh_ov "a.dtbo".toList 6
      = some ⟨-22, ov_negative_id,
          [Call.request_firmware "a.dtbo".toList, Call.of_fdt_unflatten_tree 1,
           Call.of_node_set_flag 2, Call.of_resolve_phandles 2,
           Call.of_overlay_fdt_apply 2 0, Call.release_firmware (some 1)]⟩ ∧
    Reachable ov_negative_id ∧
    ov_negative_id.ov_id ≠ -1 ∧
    (cfs_overlay_item_status_show ov_negative_id).2 = "unapplied\n".toList := by
  have h : cfs_overlay_item_path_store kernel_apply_negative_id fresh_ov "a.dtbo".toList 6
      = some ⟨-22, ov_negative_id,
          [Call.request_firmware "a.dtbo".toList, Call.of_fdt_unflatten_tree 1,
           Call.of_node_set_flag 2, Call.of_resolve_phandles 2,
           Call.of_overlay_fdt_apply 2 0, Call.release_firmware (some 1)]⟩ := by decide
  exact ⟨h, Reachable.store kernel_apply_negative_id fresh_ov "a.dtbo".toList 6 _
    (Reachable.make kernel_ok "ov".toList fresh_ov rfl) h, by decide, by decide⟩

/-- C12 (amended): a status read returns `applied` if and only if the overlay
handle is non-negative, and `unapplied` if and only if it is negative (the
sentinel `-1` or any other negative value); it always succeeds, returning the
length of the text, and it has no effect on the item (the function only reads
`ov_id`). -/
theorem status_show_iff (s : cfs_overlay_item) :
    ((cfs_overlay_item_status_show s).2 = "applied\n".toList ↔ 0 ≤ s.ov_id) ∧
    ((cfs_overlay_item_status_show s).2 = "unapplied\n".toList ↔ s.ov_id < 0) ∧
    (cfs_overlay_item_status_show s).1 = ((cfs_overlay_item_status_show s).2.length : Nat) ∧
    0 < (cfs_overlay_item_status_show s).1 ∧
    ∀ s2 : cfs_overlay_item, s2.ov_id = s.ov_id →
      cfs_overlay_item_status_show s2 = cfs_overlay_item_status_show s := by
  refine ⟨?_, ?_, ?_, ?_, ?_⟩
  · by_cases h : 0 ≤ s.ov_id
    · simp [status_show_applied s h, h]
    · have h2 := status_show_unapplied s (not_le.mp h)
      rw [h2]
      constructor
      · intro hc
        exact absurd hc (by decide)
      · intro hc
        exact absurd hc h
  · by_cases h : 0 ≤ s.ov_id
    · rw [status_show_applied s h]
      constructor
      · intro hc
        exact absurd hc (by decide)
      · intro hc
        exact absurd h (not_le.mpr hc)
    · simp [status_show_unapplied s (not_le.mp h), not_le.mp h]
  · simp [cfs_overlay_item_status_show]
  · by_cases h : 0 ≤ s.ov_id <;> simp [cfs_overlay_item_status_show, h]
  · intro s2 h2
    simp [cfs_overlay_item_status_show, h2]

/-- C13: for every name, when the allocation succeeds `make_item` returns an
item of that name whose path is empty, whose blob, tree and `dtbo` buffer are
`NULL`, whose overlay handle is `-1` and whose status reads `unapplied`; when
the allocation fails it returns `-ENOMEM` (`-12`) and no item. -/
theorem make_item_fresh (k : Kernel) (name : List Char) :
    (k.kzalloc = true →
      ∃ s, cfs_overlay_group_make_item k name = .ok s ∧
        s.item = name ∧ s.path = [] ∧ s.fw = none ∧ s.overlay = none ∧ s.ov_id = -1 ∧
        s.dtbo = none ∧ s.dtbo_size = 0 ∧
        (cfs_overlay_item_path_show s).2 = ['\n'] ∧
        (cfs_overlay_item_status_show s).2 = "unapplied\n".toList) ∧
    (k.kzalloc = false →
      cfs_overlay_group_make_item k name = .error (-ENOMEM) ∧ -ENOMEM = -12) := by
  constructor
  · intro h
    refine ⟨{ item := name, path := [], fw := none, overlay := none, ov_id := -1,
              dtbo := none, dtbo_size := 0 },
      by simp [cfs_overlay_group_make_item, h], rfl, rfl, rfl, rfl, rfl, rfl, rfl, rfl, ?_⟩
    exact status_show_unapplied _ (show (-1 : Int) < 0 by decide)
  · intro h
    exact ⟨by simp [cfs_overlay_group_make_item, h], by decide⟩

/-- C15: the calls of `cfs_overlay_release` do not depend on what the kernel
returns: whatever `of_overlay_remove` reports and stores, the release goes on
to release the blob when there is one, to free the `dtbo` buffer and to free
the item, as it does when the removal succeeds. -/
theorem release_ignores_remove_result (k1 k2 : Kernel) (s : cfs_overlay_item) :
    cfs_overlay_release k1 s = cfs_overlay_release k2 s ∧
    (cfs_overlay_release k1 s).filter (fun c => !is_overlay_remove c)
      = (if s.fw.isSome then [Call.release_firmware s.fw] else []) ++
        [Call.kfree_dtbo s.dtbo, Call.kfree_overlay] := by
  constructor
  · unfold cfs_overlay_release
    by_cases hid : 0 ≤ s.ov_id <;> simp [hid]
  · unfold cfs_overlay_release
    by_cases hid : 0 ≤ s.ov_id <;> cases hfw : s.fw <;> simp [hid, hfw, is_overlay_remove]

/-! ## The claims on the stored path and the write-once test -/

theorem stored_path_text_of (n : Nat) :
    stored_path (text_of n 'a') = text_of (min (PATH_MAX - 2) n) 'a' := by
  have hmem : ∀ m, ∀ c ∈ text_of m 'a', c = 'a' := fun m c hc => List.eq_of_mem_replicate hc
  rw [stored_path_eq, c_str_of_no_nul]
  · have ht : List.take (PATH_MAX - 2) (text_of n 'a') = text_of (min (PATH_MAX - 2) n) 'a' := by
      simp [text_of, List.take_replicate]
    rw [ht]
    unfold without_trailing_newlines
    rw [List.rdropWhile_eq_self_iff]
    intro hl
    have := hmem _ _ (List.getLast_mem hl)
    rw [this]
    decide
  · intro c hc
    rw [hmem n c hc]
    decide

/-- Counterexample to C14: the text of `PATH_MAX - 1` letters `a` fits the
`PATH_MAX` bytes of the path buffer with its NUL and has no trailing newline.
Its write succeeds and returns `4095`, and `path` then reads only the first
`PATH_MAX - 2` letters. -/
theorem long_text_is_cut :
    (text_of (PATH_MAX - 1) 'a').length + 1 ≤ PATH_MAX ∧
    without_trailing_newlines (text_of (PATH_MAX - 1) 'a') = text_of (PATH_MAX - 1) 'a' ∧
    ∃ o, cfs_overlay_item_path_store kernel_ok fresh_ov (text_of (PATH_MAX - 1) 'a')
        (PATH_MAX - 1) = some o ∧
      o.ret = 4095 ∧
      (cfs_overlay_item_path_show o.overlay).2 = text_of (PATH_MAX - 2) 'a' ++ ['\n'] ∧
      (cfs_overlay_item_path_show o.overlay).2
        ≠ without_trailing_newlines (text_of (PATH_MAX - 1) 'a') ++ ['\n'] := by
  have hw : without_trailing_newlines (text_of (PATH_MAX - 1) 'a')
      = text_of (PATH_MAX - 1) 'a' := by
    unfold without_trailing_newlines
    rw [List.rdropWhile_eq_self_iff]
    intro hl
    have := List.eq_of_mem_replicate (List.getLast_mem hl)
    rw [this]
    decide
  have hsp : stored_path (text_of (PATH_MAX - 1) 'a') = text_of (PATH_MAX - 2) 'a' := by
    rw [stored_path_text_of]
    rfl
  have hcs : c_str (text_of (PATH_MAX - 1) 'a') = text_of (PATH_MAX - 1) 'a' := by
    apply c_str_of_no_nul
    intro c hc
    rw [List.eq_of_mem_replicate hc]
    decide
  have hlen : ∀ n, (text_of n 'a').length = n := fun n => List.length_replicate n 'a'
  refine ⟨by rw [hlen]; decide, hw, _,
    path_store_success kernel_ok fresh_ov _ (PATH_MAX - 1) (by decide) 1 2 7
      ⟨rfl, rfl, rfl, by decide, rfl⟩, ?_, ?_, ?_⟩
  · show (((c_str (text_of (PATH_MAX - 1) 'a')).length : Nat) : Int) = 4095
    rw [hcs, hlen]
    rfl
  · simp only [cfs_overlay_item_path_show]
    rw [hsp]
  · simp only [cfs_overlay_item_path_show]
    rw [hw, hsp]
    intro hc
    have := congrArg List.length hc
    rw [List.length_append, List.length_append, hlen, hlen] at this
    exact absurd this (by decide)

/-- C14 (amended): on every item whose path is not set, for every text of at
most `PATH_MAX - 2` characters, after a successful write `path` reads the text
with all of its trailing newlines removed, followed by one newline; stripping
is idempotent, and writing the stripped text stores the same path. -/
theorem path_read_after_write (k : Kernel) (s : cfs_overlay_item) (buf : List Char)
    (count : Nat) (b : Blob) (t : Node) (h : Int)
    (hs : ¬ path_is_set s) (hfit : (c_str buf).length ≤ PATH_MAX - 2)
    (hc : chain_succeeds k s buf b t h) :
    ∃ o, cfs_overlay_item_path_store k s buf count = some o ∧
      o.overlay.path = without_trailing_newlines (c_str buf) ∧
      (cfs_overlay_item_path_show o.overlay).2
        = without_trailing_newlines (c_str buf) ++ ['\n'] ∧
      without_trailing_newlines (without_trailing_newlines (c_str buf))
        = without_trailing_newlines (c_str buf) ∧
      stored_path (without_trailing_newlines (c_str buf))
        = without_trailing_newlines (c_str buf) := by
  have hsp := stored_path_of_fits buf hfit
  refine ⟨_, path_store_success k s buf count hs b t h hc, hsp, ?_, ?_, ?_⟩
  · simp [cfs_overlay_item_path_show, hsp]
  · exact List.rdropWhile_idempotent _ _
  · rw [← hsp]
    exact stored_path_idem buf

/-- Witness of C14 (amended): `valid.dtbo` written with two newlines. -/
theorem path_read_after_write_witness :
    ∃ o, cfs_overlay_item_path_store kernel_ok fresh_ov "valid.dtbo\n\n".toList 12 = some o ∧
      o.overlay.path = without_trailing_newlines (c_str "valid.dtbo\n\n".toList) ∧
      (cfs_overlay_item_path_show o.overlay).2
        = without_trailing_newlines (c_str "valid.dtbo\n\n".toList) ++ ['\n'] ∧
      without_trailing_newlines (without_trailing_newlines (c_str "valid.dtbo\n\n".toList))
        = without_trailing_newlines (c_str "valid.dtbo\n\n".toList) ∧
      stored_path (without_trailing_newlines (c_str "valid.dtbo\n\n".toList))
        = without_trailing_newlines (c_str "valid.dtbo\n\n".toList) :=
  path_read_after_write kernel_ok fresh_ov "valid.dtbo\n\n".toList 12 1 2 7
    (by decide) (by decide) ⟨rfl, rfl, rfl, by decide, rfl⟩

/-- Counterexample to C16: the fresh item `ov` has an empty path, and the
write of `a.dtbo` returns `-EPERM` all the same, because the loader reported
`-EPERM`; the loader and the blob release were called. -/
theorem eperm_from_loader_with_empty_path :
    Reachable fresh_ov ∧ fresh_ov.path = [] ∧
    cfs_overlay_item_path_store kernel_load_eperm fresh_ov "a.dtbo".toList 6
      = some ⟨-EPERM, fresh_ov,
          [Call.request_firmware "a.dtbo".toList, Call.release_firmware none]⟩ :=
  ⟨Reachable.make kernel_ok "ov".toList fresh_ov rfl, rfl, by decide⟩

/-- C16 (amended): in every item reachable from `make_item` by writes, a write
is refused (it returns `-EPERM`, calls no kernel service and leaves the item
as it was) if and only if the stored path is not empty at entry; with an empty
path the write returns (unless the loader reports success with a `NULL` blob),
it has then called the loader first, and it returns `-EPERM` only when its
load, resolve or apply step failed and reported `-EPERM`. -/
theorem write_refused_iff (k : Kernel) (s : cfs_overlay_item) (buf : List Char) (count : Nat)
    (hr : Reachable s) :
    (cfs_overlay_item_path_store k s buf count = some ⟨-EPERM, s, []⟩ ↔ s.path ≠ []) ∧
    (s.path = [] → k.request_firmware (stored_path buf) s.fw ≠ (0, none) →
      ∃ o, cfs_overlay_item_path_store k s buf count = some o) ∧
    (s.path = [] → ∀ o, cfs_overlay_item_path_store k s buf count = some o →
      o.calls.head? = some (Call.request_firmware (stored_path buf)) ∧
      (o.ret = -EPERM → ∃ st, st ≠ Step.unflatten ∧ fails_at k s buf st (-EPERM))) := by
  have hset := reachable_set_iff s hr
  refine ⟨?_, ?_, ?_⟩
  · constructor
    · intro h hp
      have hs : ¬ path_is_set s := fun hc => (hset.mp hc) hp
      have := path_store_calls_head k s buf count hs _ h
      simp at this
    · intro hp
      exact path_store_of_set k s buf count (hset.mpr hp)
  · intro hp
    exact path_store_returns k s buf count (fun hc => (hset.mp hc) hp)
  · intro hp o ho
    have hs : ¬ path_is_set s := fun hc => (hset.mp hc) hp
    exact ⟨path_store_calls_head k s buf count hs o ho,
      path_store_eperm_from_step k s buf count o hs ho⟩

/-- Witness of C16 (amended): the fresh item `ov`, with a loader that reports
`-EPERM`. -/
theorem write_refused_iff_witness :
    (cfs_overlay_item_path_store kernel_load_eperm fresh_ov "a.dtbo".toList 6
        = some ⟨-EPERM, fresh_ov, []⟩ ↔ fresh_ov.path ≠ []) ∧
    (fresh_ov.path = [] →
      kernel_load_eperm.request_firmware (stored_path "a.dtbo".toList) fresh_ov.fw
        ≠ (0, none) →
      ∃ o, cfs_overlay_item_path_store kernel_load_eperm fresh_ov "a.dtbo".toList 6 = some o) ∧
    (fresh_ov.path = [] → ∀ o,
      cfs_overlay_item_path_store kernel_load_eperm fresh_ov "a.dtbo".toList 6 = some o →
      o.calls.head? = some (Call.request_firmware (stored_path "a.dtbo".toList)) ∧
      (o.ret = -EPERM →
        ∃ st, st ≠ Step.unflatten ∧
          fails_at kernel_load_eperm fresh_ov "a.dtbo".toList st (-EPERM))) :=
  write_refused_iff kernel_load_eperm fresh_ov "a.dtbo".toList 6
    (Reachable.make kernel_ok "ov".toList fresh_ov rfl)

/-- C17: no write changes `dtbo` or `dtbo_size`; in every item reachable from
`make_item` by writes `dtbo` is `NULL` and `dtbo_size` is `0`, so the
write-once test is the test of the path alone, and every write leaves them so
and passes the size `0` to every apply call it makes. -/
theorem dtbo_never_assigned (s : cfs_overlay_item) (hr : Reachable s) :
    s.dtbo = none ∧ s.dtbo_size = 0 ∧ ¬ s.dtbo_size > 0 ∧
    (path_is_set s ↔ s.path ≠ []) ∧
    ∀ k buf count o, cfs_overlay_item_path_store k s buf count = some o →
      o.overlay.dtbo = none ∧ o.overlay.dtbo_size = 0 ∧
      ∀ t size, Call.of_overlay_fdt_apply t size ∈ o.calls → size = 0 := by
  obtain ⟨hd, hz⟩ := reachable_dtbo s hr
  refine ⟨hd, hz, by rw [hz]; decide, reachable_set_iff s hr, ?_⟩
  intro k buf count o ho
  obtain ⟨_, h2, h3, h4⟩ := path_store_frame k s buf count o ho
  exact ⟨h2.trans hd, h3.trans hz, fun t size hm => (h4 t size hm).trans hz⟩

/-- Witness of C17: the item left by a write that failed at resolve. -/
theorem dtbo_never_assigned_witness :
    ov_after_resolve_failure.dtbo = none ∧ ov_after_resolve_failure.dtbo_size = 0 ∧
    ¬ ov_after_resolve_failure.dtbo_size > 0 ∧
    (path_is_set ov_after_resolve_failure ↔ ov_after_resolve_failure.path ≠ []) ∧
    ∀ k buf count o,
      cfs_overlay_item_path_store k ov_after_resolve_failure buf count = some o →
      o.overlay.dtbo = none ∧ o.overlay.dtbo_size = 0 ∧
      ∀ t size, Call.of_overlay_fdt_apply t size ∈ o.calls → size = 0 :=
  dtbo_never_assigned ov_after_resolve_failure
    (Reachable.store kernel_resolve_fails fresh_ov "a.dtbo".toList 6 _
      (Reachable.make kernel_ok "ov".toList fresh_ov rfl) resolve_failure_run)

/-- C19: on every item whose path is not set, a successful write returns the
length of the text at `buf` (the `snprintf` result), whatever the `count`
argument: trailing newlines are counted and the cut to the buffer is not
reflected, so the value is at least the length of the stored path and is not
that length in general. -/
theorem write_returns_text_length (k : Kernel) (s : cfs_overlay_item) (buf : List Char)
    (count : Nat) (b : Blob) (t : Node) (h : Int)
    (hs : ¬ path_is_set s) (hc : chain_succeeds k s buf b t h) :
    ∃ o, cfs_overlay_item_path_store k s buf count = some o ∧
      o.ret = ((c_str buf).length : Nat) ∧
      (∀ count2, cfs_overlay_item_path_store k s buf count2 = some o) ∧
      o.overlay.path = stored_path buf ∧
      ((o.overlay.path.length : Nat) : Int) ≤ o.ret := by
  refine ⟨_, path_store_success k s buf count hs b t h hc, rfl, ?_, rfl, ?_⟩
  · intro count2
    exact path_store_success k s buf count2 hs b t h hc
  · exact Int.ofNat_le.mpr (stored_path_length_le buf).2

/-- Witness of C19: `valid.dtbo` and a newline written with `count` 3: the
write returns `11`, not `3` and not the length `10` of the stored path. -/
theorem write_returns_text_length_witness :
    ∃ o, cfs_overlay_item_path_store kernel_ok fresh_ov "valid.dtbo\n".toList 3 = some o ∧
      o.ret = 11 ∧ o.ret ≠ 3 ∧ o.overlay.path.length = 10 := by
  obtain ⟨o, h1, h2, _, h4, _⟩ :=
    write_returns_text_length kernel_ok fresh_ov "valid.dtbo\n".toList 3 1 2 7
      (by decide) ⟨rfl, rfl, rfl, by decide, rfl⟩
  refine ⟨o, h1, ?_, ?_, ?_⟩
  · rw [h2]; decide
  · rw [h2]; decide
  · rw [h4]; decide

/-! ## The path buffer -/

theorem c_str_append_nul (l r : List Char) (hl : ∀ c ∈ l, c ≠ '\x00') :
    c_str (l ++ '\x00' :: r) = l := by
  unfold c_str
  rw [List.takeWhile_append_of_pos]
  · simp
  · intro a ha
    simpa using hl a ha

theorem buf_read_at_length (l r : List Char) (a : Char) :
    buf_read (l ++ a :: r) (l.length : Int) = some a := by
  unfold buf_read
  have h : (0 : Int) ≤ (l.length : Int) ∧ (l.length : Int) < ((l ++ a :: r).length : Nat) := by
    constructor
    · exact Int.ofNat_nonneg _
    · rw [List.length_append, List.length_cons]
      omega
  rw [if_pos h, Int.toNat_ofNat, List.get?_eq_getElem?,
    List.getElem?_append_right (le_refl _)]
  simp

theorem buf_write_at_length (l r : List Char) (a c : Char) :
    buf_write (l ++ a :: r) (l.length : Int) c = some (l ++ c :: r) := by
  unfold buf_write
  have h : (0 : Int) ≤ (l.length : Int) ∧ (l.length : Int) < ((l ++ a :: r).length : Nat) := by
    constructor
    · exact Int.ofNat_nonneg _
    · rw [List.length_append, List.length_cons]
      omega
  rw [if_pos h]
  simp

theorem strip_trailing_newlines_concat (l : List Char) (a : Char) :
    strip_trailing_newlines (l.length + 1) (l ++ [a])
      = if a = '\n' then strip_trailing_newlines l.length l else l ++ [a] := by
  rw [strip_trailing_newlines]
  by_cases ha : a = '\n'
  · subst ha
    simp
  · simp [ha]

/-- The loop on the bytes, started at the end of the string `l`, leaves the
string that the loop on the string computes, and needs `l.length + 1` fuel. -/
theorem strip_loop_eq (l : List Char) :
    ∀ (fuel : Nat) (r : List Char), l.length < fuel →
      ∃ r2, strip_loop fuel (l ++ '\x00' :: r) (l.length : Int)
          = some (strip_trailing_newlines l.length l ++ '\x00' :: r2) ∧
        (strip_trailing_newlines l.length l).length + r2.length = l.length + r.length := by
  induction l using List.reverseRecOn with
  | nil =>
    intro fuel r hf
    obtain ⟨f, rfl⟩ : ∃ f, fuel = f + 1 := ⟨fuel - 1, by omega⟩
    exact ⟨r, by simp [strip_loop, strip_trailing_newlines], by simp [strip_trailing_newlines]⟩
  | append_singleton l a ih =>
    intro fuel r hf
    obtain ⟨f, rfl⟩ : ∃ f, fuel = f + 1 := ⟨fuel - 1, by omega⟩
    have hlen : (l ++ [a]).length = l.length + 1 := by simp
    rw [hlen] at hf ⊢
    have hpos : ((l.length + 1 : Nat) : Int) > 0 := by omega
    have hsub : ((l.length + 1 : Nat) : Int) - 1 = (l.length : Int) := by omega
    have hshape : l ++ [a] ++ '\x00' :: r = l ++ a :: '\x00' :: r := by simp
    rw [strip_trailing_newlines_concat]
    unfold strip_loop
    rw [if_pos hpos, hsub, hshape, buf_read_at_length]
    by_cases ha : a = '\n'
    · obtain ⟨r2, h1, h2⟩ := ih f ('\x00' :: r) (by omega)
      refine ⟨r2, ?_, ?_⟩
      · simp only [ha, if_true]
        rw [buf_write_at_length]
        exact h1
      · rw [if_pos ha, h2]
        simp
        omega
    · refine ⟨r, ?_, ?_⟩
      · simp only [ha, if_false]
        simp
      · rw [if_neg ha]
        simp

theorem buf_write_after (l r : List Char) (i : Nat) (c : Char)
    (hi : l.length < i) (hlt : i < (l ++ '\x00' :: r).length) :
    ∃ r2, buf_write (l ++ '\x00' :: r) (i : Int) c = some (l ++ '\x00' :: r2) ∧
      r2.length = r.length := by
  unfold buf_write
  have h : (0 : Int) ≤ (i : Int) ∧ (i : Int) < ((l ++ '\x00' :: r).length : Nat) :=
    ⟨Int.ofNat_nonneg _, Int.ofNat_lt.mpr hlt⟩
  obtain ⟨j, hj⟩ : ∃ j, i - l.length = j + 1 := ⟨i - l.length - 1, by omega⟩
  refine ⟨r.set j c, ?_, by simp⟩
  rw [if_pos h, Int.toNat_ofNat, List.set_append_right _ _ (le_of_lt hi), hj,
    List.set_cons_succ]

theorem buf_snprintf_eq (path p : List Char) (size : Nat) (h0 : 0 < size)
    (hsize : size ≤ path.length) :
    buf_snprintf path size p
      = some ((snprintf size p).1 ++ '\x00' :: path.drop ((snprintf size p).1.length + 1)) ∧
    ((snprintf size p).1 ++ '\x00' :: path.drop ((snprintf size p).1.length + 1)).length
      = path.length := by
  have hn : (List.take (size - 1) p).length ≤ size - 1 := by
    rw [List.length_take]
    exact min_le_left _ _
  constructor
  · unfold buf_snprintf snprintf
    rw [if_neg (by omega), if_pos hsize]
  · simp only [snprintf, List.length_append, List.length_cons, List.length_drop]
    omega

/-- C18: for every text at `buf` and every content of the `PATH_MAX` bytes of
the path buffer, the copy and the stripping loop of
`cfs_overlay_item_path_store` run to their end with every access inside the
buffer (any fuel of `PATH_MAX - 1` or more is enough, also for a text of
newlines only).  The buffer they leave holds the stored path followed by a NUL
at an offset of at most `PATH_MAX - 2`, and the stored path is the first
`min(len, PATH_MAX - 2)` characters of the text with the trailing newlines of
that part removed. -/
theorem path_buffer_store_safe (fuel : Nat) (path buf : List Char)
    (hlen : path.length = PATH_MAX) (hfuel : PATH_MAX - 1 ≤ fuel) :
    ∃ b, path_buffer_store fuel path buf = some b ∧
      b.length = PATH_MAX ∧
      c_str b = stored_path buf ∧
      buf_read b ((stored_path buf).length : Nat) = some '\x00' ∧
      (stored_path buf).length ≤ PATH_MAX - 2 ∧
      stored_path buf = without_trailing_newlines
        ((c_str buf).take (min (c_str buf).length (PATH_MAX - 2))) := by
  obtain ⟨h1, h1len⟩ := buf_snprintf_eq path (c_str buf) (PATH_MAX - 1) (by decide)
    (by rw [hlen]; decide)
  have hl : (snprintf (PATH_MAX - 1) (c_str buf)).1.length ≤ PATH_MAX - 2 := by
    unfold snprintf
    rw [List.length_take]
    exact min_le_left _ _
  have hcast : ((PATH_MAX : Nat) : Int) - 1 = ((PATH_MAX - 1 : Nat) : Int) := by decide
  obtain ⟨r2, h2, h2len⟩ := buf_write_after (snprintf (PATH_MAX - 1) (c_str buf)).1
    (path.drop ((snprintf (PATH_MAX - 1) (c_str buf)).1.length + 1)) (PATH_MAX - 1) '\x00'
    (by have : PATH_MAX - 2 < PATH_MAX - 1 := by decide
        omega)
    (by rw [h1len, hlen]; decide)
  have hnul : ∀ c ∈ (snprintf (PATH_MAX - 1) (c_str buf)).1, c ≠ '\x00' := by
    intro c hc
    exact c_str_no_nul buf c (List.mem_of_mem_take hc)
  have h3 : buf_strlen ((snprintf (PATH_MAX - 1) (c_str buf)).1 ++ '\x00' :: r2)
      = some (snprintf (PATH_MAX - 1) (c_str buf)).1.length := by
    unfold buf_strlen
    rw [if_pos (by simp), c_str_append_nul _ _ hnul]
  obtain ⟨r3, h4, h4len⟩ := strip_loop_eq (snprintf (PATH_MAX - 1) (c_str buf)).1 fuel r2
    (by have : PATH_MAX - 2 < PATH_MAX - 1 := by decide
        omega)
  have hstored : strip_trailing_newlines (snprintf (PATH_MAX - 1) (c_str buf)).1.length
      (snprintf (PATH_MAX - 1) (c_str buf)).1 = stored_path buf := rfl
  rw [hstored] at h4 h4len
  refine ⟨stored_path buf ++ '\x00' :: r3, ?_, ?_, ?_, ?_, (stored_path_length_le buf).1, ?_⟩
  · unfold path_buffer_store
    rw [h1]
    simp only
    rw [hcast, h2]
    simp only
    rw [h3]
    exact h4
  · rw [List.length_append, List.length_cons]
    rw [List.length_append, List.length_cons] at h1len
    omega
  · exact c_str_append_nul _ _ (stored_path_no_nul buf)
  · exact buf_read_at_length _ _ _
  · rw [stored_path_eq]
    congr 1
    rw [List.take_eq_take]
    simp [Nat.min_comm]

/-- Witness of C18: a text of three newlines written into a zeroed buffer. -/
theorem path_buffer_store_safe_witness :
    ∃ b, path_buffer_store PATH_MAX (text_of PATH_MAX '\x00') "\n\n\n".toList = some b ∧
      b.length = PATH_MAX ∧
      c_str b = stored_path "\n\n\n".toList ∧
      buf_read b ((stored_path "\n\n\n".toList).length : Nat) = some '\x00' ∧
      (stored_path "\n\n\n".toList).length ≤ PATH_MAX - 2 ∧
      stored_path "\n\n\n".toList = without_trailing_newlines
        ((c_str "\n\n\n".toList).take (min (c_str "\n\n\n".toList).length (PATH_MAX - 2))) :=
  path_buffer_store_safe PATH_MAX (text_of PATH_MAX '\x00') "\n\n\n".toList
    (List.length_replicate _ _) (by decide)

end DtOverlay
